import Mathlib

/-!
# Verification of the GFF3 validator (FAIR-bioHeaders/gff-schema)

Shallow embedding of `src/python/gff3-validator.py` (class `GFF3Validator`,
methods `validate_line` and `validate_file`) and proofs about the frozen
claims.  Python strings become `String`, dictionaries become insertion-ordered
association lists (Python dicts preserve insertion order and keep the original
position on overwrite), sets become duplicate-free lists with append-at-end
insertion, and Python exceptions are modelled with `Except`.
-/

namespace GFF3

/-! ## Python string primitives -/

/-- The characters stripped by Python's `str.strip()` (ASCII whitespace). -/
def pyIsSpace (c : Char) : Bool :=
  c = ' ' || c = '\t' || c = '\n' || c = '\x0d' || c = '\x0b' || c = '\x0c'

/-- Python `str.strip()`: drop leading and trailing whitespace. -/
def pyStrip (s : String) : String :=
  String.mk (((s.data.dropWhile pyIsSpace).reverse.dropWhile pyIsSpace).reverse)

/-- Split a character list at every occurrence of `sep`, keeping empty
segments, as Python `str.split(sep)` does (`''.split(sep) = ['']`). -/
def splitOnChar (sep : Char) : List Char → List (List Char)
  | [] => [[]]
  | c :: cs =>
    match splitOnChar sep cs with
    | [] => [[c]]
    | g :: gs => if c = sep then [] :: g :: gs else (c :: g) :: gs

/-- Python `s.split(sep)` for a one-character separator. -/
def pySplitChar (sep : Char) (s : String) : List String :=
  (splitOnChar sep s.data).map String.mk

/-- Split at the first occurrence of `sep` (Python `s.split(sep, 1)` when
`sep` occurs in `s`): returns the parts before and after it. -/
def splitFirstChar (sep : Char) : List Char → List Char × List Char
  | [] => ([], [])
  | c :: cs =>
    if c = sep then ([], cs)
    else
      let p := splitFirstChar sep cs
      (c :: p.1, p.2)

/-- Helper for Python `str.split()` with no argument: accumulate the current
token (reversed) while scanning. -/
def splitWSAux : List Char → List Char → List (List Char)
  | cur, [] => if cur.isEmpty then [] else [cur.reverse]
  | cur, c :: cs =>
    if pyIsSpace c then
      if cur.isEmpty then splitWSAux [] cs else cur.reverse :: splitWSAux [] cs
    else splitWSAux (c :: cur) cs

/-- Python `str.split()` with no argument: split on whitespace runs,
discarding empty tokens. -/
def pySplitWS (s : String) : List String :=
  (splitWSAux [] s.data).map String.mk

/-- Digit-string value for Python `int()`: after the first digit, single
underscores are allowed between digits. -/
def pyDigitsAux : Nat → List Char → Option Nat
  | acc, [] => some acc
  | acc, '_' :: c :: cs =>
    if c.isDigit then pyDigitsAux (acc * 10 + (c.toNat - 48)) cs else none
  | _, ['_'] => none
  | acc, c :: cs =>
    if c.isDigit then pyDigitsAux (acc * 10 + (c.toNat - 48)) cs else none

/-- Nonempty digit run (underscore-separated groups allowed, as in Python). -/
def pyDigits : List Char → Option Nat
  | [] => none
  | c :: cs => if c.isDigit then pyDigitsAux (c.toNat - 48) cs else none

/-- Python `int(s)`: strip whitespace, optional sign, digits; `none` models a
raised `ValueError`. -/
def pyInt (s : String) : Option Int :=
  match (pyStrip s).data with
  | [] => none
  | c :: cs =>
    if c = '-' then (pyDigits cs).map (fun n => -(n : Int))
    else if c = '+' then (pyDigits cs).map (fun n => (n : Int))
    else (pyDigits (c :: cs)).map (fun n => (n : Int))

/-! ## Association lists (Python dict with insertion order) -/

/-- Lookup in an association list (Python `d[k]` / `k in d`). -/
def alookup {κ α : Type} [DecidableEq κ] : List (κ × α) → κ → Option α
  | [], _ => none
  | (k', v) :: rest, k => if k' = k then some v else alookup rest k

/-- Python `d[k] = v`: overwrite in place if the key exists (keeping its
position, as Python dicts do), otherwise append at the end. -/
def aupdate {κ α : Type} [DecidableEq κ] : List (κ × α) → κ → α → List (κ × α)
  | [], k, v => [(k, v)]
  | (k', v') :: rest, k, v =>
    if k' = k then (k, v) :: rest else (k', v') :: aupdate rest k v

/-! ## Data model -/

/-- A parsed attribute value: a string from `key=value`, or the boolean flag
`True` for a bare key. -/
inductive AttrVal : Type
  | str (s : String)
  | flag
deriving DecidableEq, Repr

/-- Rendering of an attribute value inside an f-string (`True` for the flag). -/
def attrValStr : AttrVal → String
  | .str s => s
  | .flag => "True"

/-- A value in a per-line error dictionary: either a plain message string
(`errors[cat] = msg`) or a list built with `setdefault(cat, []).append`. -/
inductive ErrVal : Type
  | str (s : String)
  | list (l : List String)
deriving DecidableEq, Repr

/-- The per-line error dictionary returned by `validate_line`. -/
abbrev LineErrors := List (String × ErrVal)

/-- The Python exceptions the validator can actually raise. -/
inductive PyExn : Type
  | unboundLocalError
  | typeError
  | attributeError
deriving DecidableEq, Repr

/-- The mutable validator state (`self.seen_ids`, `self.parent_relationships`,
`self.feature_types`).  Sets are duplicate-free lists in insertion order; the
parent graph is an insertion-ordered association list. -/
structure VState : Type where
  seen_ids : List String
  parents : List (String × List String)
  feature_types : List String
deriving DecidableEq, Repr

/-- A key of the report returned by `validate_file`: an `int` line number or a
string (a child feature ID, or `"feature_type"`). -/
inductive RKey : Type
  | line (n : Nat)
  | str (s : String)
deriving DecidableEq, Repr

/-- An entry of the file report: the per-line/per-child error dictionary, or
the bare string assigned under `"feature_type"`. -/
inductive REntry : Type
  | map (m : LineErrors)
  | bare (s : String)
deriving DecidableEq, Repr

/-- The report returned by `validate_file`. -/
abbrev Report := List (RKey × REntry)

/-- Modelled from the spec: the injected type-checking capability (the LinkML
schema `gff.py` loaded by `SchemaView` is not part of `src/`; §6 of the spec
describes it as an external collaborator with `hasType`/`conforms`/
`permissibleValues`).  `hasClass`/`classTypeof` stand for
`schema_view.has_class` / `class_definitions[name].typeof`, `hasSlot`/
`slotTypeof` for `schema_view.has_slot` / `slot_definitions[name].typeof`, and
`permissible` for `class_definitions['Type'].permissible_values`. -/
structure Schema : Type where
  hasClass : String → Bool
  classTypeof : String → String → Bool
  hasSlot : String → Bool
  slotTypeof : String → AttrVal → Bool
  permissible : List String

/-! ## Error-dictionary operations -/

/-- `errors[cat] = msg` (a bare string assignment). -/
def assign (e : LineErrors) (cat msg : String) : LineErrors :=
  aupdate e cat (.str msg)

/-- `errors.setdefault(cat, []).append(msg)`.  The `.str` case cannot occur in
the source (no category is both assigned a string and extended as a list), so
it leaves the dictionary unchanged. -/
def appendList (e : LineErrors) (cat msg : String) : LineErrors :=
  match alookup e cat with
  | some (.str _) => e
  | some (.list l) => aupdate e cat (.list (l ++ [msg]))
  | none => aupdate e cat (.list [msg])

/-- Set insertion: `s.add(x)` for a set represented as a dup-free list. -/
def addSet (l : List String) (s : String) : List String :=
  if l.contains s then l else l ++ [s]

/-- `self.parent_relationships[pid].append(child)` on a `defaultdict(list)`. -/
def parentsAdd (ps : List (String × List String)) (pid child : String) :
    List (String × List String) :=
  aupdate ps pid (((alookup ps pid).getD []) ++ [child])

/-! ## validate_line -/

/-- Python `line.startswith('#')` for the one-character needle `'#'`: true
exactly when the first character is `#`. -/
def pyStartsHash (l : String) : Bool :=
  match l.data with
  | [] => false
  | c :: _ => c = '#'

/-- `line.strip().split('\t')`. -/
def lineFields (line : String) : List String :=
  pySplitChar '\t' (pyStrip line)

/-- One character of the ID/Alias pattern `^[a-zA-Z0-9.:^*$@!+_?-]+$`. -/
def idChar (c : Char) : Bool :=
  c.isAlphanum || c = '.' || c = ':' || c = '^' || c = '*' || c = '$' ||
    c = '@' || c = '!' || c = '+' || c = '_' || c = '?' || c = '-'

/-- `re.match(r'^[a-zA-Z0-9.:^*$@!+_?-]+$', s)` viewed as a boolean. -/
def idPattern (s : String) : Bool :=
  !s.isEmpty && s.data.all idChar

/-- Membership in the literal `'ACGTacgt'`. -/
def isNuc (c : Char) : Bool :=
  "ACGTacgt".data.contains c

/-- Membership in the amino-acid literal of the `Amino_acid` check. -/
def isAA (c : Char) : Bool :=
  "ACDEFGHIKLMNPQRSTVWYacdefghiklmnpqrstvwy*".data.contains c

/-- The attribute parser (source lines 86–92): split on `;`; a segment with
`=` maps the part before the first `=` to the remainder, a segment without
`=` becomes the flag `True`; assignment into a dict makes later occurrences of
a key overwrite earlier ones. -/
def parseAttrs (attributes : String) : List (String × AttrVal) :=
  (pySplitChar ';' attributes).foldl
    (fun m attr =>
      if attr.data.contains '=' then
        let p := splitFirstChar '=' attr.data
        aupdate m (String.mk p.1) (.str (String.mk p.2))
      else aupdate m attr .flag)
    []

/-- Seqid check (lines 47–49). -/
def seqidErr (sch : Schema) (e : LineErrors) (seqid : String) : LineErrors :=
  if !sch.hasClass "Seqid" || !sch.classTypeof "Seqid" seqid then
    assign e "seqid" ("Invalid seqid: " ++ seqid)
  else e

/-- Source check (lines 51–53). -/
def sourceErr (sch : Schema) (e : LineErrors) (source : String) : LineErrors :=
  if !sch.hasClass "Source" || !sch.classTypeof "Source" source then
    assign e "source" ("Invalid source: " ++ source)
  else e

/-- Type check (lines 55–59); a conformant type is added to
`self.feature_types`. -/
def typeCheck (sch : Schema) (st : VState) (e : LineErrors) (ty : String) :
    VState × LineErrors :=
  if !sch.hasClass "Type" || !sch.classTypeof "Type" ty then
    (st, assign e "type" ("Invalid type: " ++ ty))
  else ({ st with feature_types := addSet st.feature_types ty }, e)

/-- Start/end checks (lines 61–71): an `int()` failure on either field lands
in the `except` branch and reports both fields. -/
def startEndErr (e : LineErrors) (start endv : String) : LineErrors :=
  match pyInt start, pyInt endv with
  | some a, some b =>
    let e := if a < 1 then assign e "start" ("Start position must be >= 1: " ++ start) else e
    if b < a then assign e "end" ("End position must be >= start position: " ++ endv) else e
  | _, _ =>
    assign (assign e "start" ("Invalid start position: " ++ start))
      "end" ("Invalid end position: " ++ endv)

/-- Score check (lines 73–75). -/
def scoreErr (sch : Schema) (e : LineErrors) (score : String) : LineErrors :=
  if score ≠ "." && (!sch.hasSlot "score" || !sch.slotTypeof "score" (.str score)) then
    assign e "score" ("Invalid score: " ++ score)
  else e

/-- Strand check (lines 77–79). -/
def strandErr (e : LineErrors) (strand : String) : LineErrors :=
  if !(["+", "-", "."].contains strand) then
    assign e "strand" ("Invalid strand: " ++ strand)
  else e

/-- Phase check (lines 81–83). -/
def phaseErr (sch : Schema) (e : LineErrors) (phase : String) : LineErrors :=
  if phase ≠ "." && (!sch.hasSlot "phase" || !sch.slotTypeof "phase" (.str phase)) then
    assign e "phase" ("Invalid phase: " ++ phase)
  else e

/-- Generic per-attribute conformance loop (lines 94–96). -/
def genericAttrErrs (sch : Schema) (e : LineErrors) (attrs : List (String × AttrVal)) :
    LineErrors :=
  attrs.foldl
    (fun e kv =>
      if !sch.hasSlot kv.1 || !sch.slotTypeof kv.1 kv.2 then
        assign e ("attribute." ++ kv.1)
          ("Invalid attribute: " ++ kv.1 ++ "=" ++ attrValStr kv.2)
      else e)
    e

/-- The pure prefix of `validate_line` on a 9-field line: field checks and the
generic attribute loop (lines 45–96). -/
def fieldStage (sch : Schema) (st : VState) (fields : List String) :
    VState × LineErrors :=
  let seqid := fields.getD 0 ""
  let source := fields.getD 1 ""
  let ty := fields.getD 2 ""
  let start := fields.getD 3 ""
  let endv := fields.getD 4 ""
  let score := fields.getD 5 ""
  let strand := fields.getD 6 ""
  let phase := fields.getD 7 ""
  let attributes := fields.getD 8 ""
  let e := seqidErr sch [] seqid
  let e := sourceErr sch e source
  let p := typeCheck sch st e ty
  let e := startEndErr p.2 start endv
  let e := scoreErr sch e score
  let e := strandErr e strand
  let e := phaseErr sch e phase
  (p.1, genericAttrErrs sch e (parseAttrs attributes))

/-- Duplicate-ID and ID-character checks (lines 100–112).  A flag-valued `ID`
reaches `re.match` with `True` and raises `TypeError`. -/
def checkID (st : VState) (e : LineErrors) (attrs : List (String × AttrVal)) :
    Except PyExn (VState × LineErrors × Option String) :=
  match alookup attrs "ID" with
  | none => .ok (st, e, none)
  | some .flag => .error .typeError
  | some (.str idv) =>
    let p :=
      if st.seen_ids.contains idv then (st, assign e "id" ("Duplicate ID: " ++ idv))
      else ({ st with seen_ids := st.seen_ids ++ [idv] }, e)
    let e := if !idPattern idv then assign p.2 "id" ("Invalid characters in ID: " ++ idv) else p.2
    .ok (p.1, e, some idv)

/-- One iteration of the first `Parent` loop (lines 117–120): report a parent
not yet registered, then record the `parent → id_value` edge. -/
def parentStep (idv : String) (p : VState × LineErrors) (pid : String) :
    VState × LineErrors :=
  let e :=
    if !p.1.seen_ids.contains pid then
      appendList p.2 "parent" ("Parent ID not found: " ++ pid)
    else p.2
  ({ p.1 with parents := parentsAdd p.1.parents pid idv }, e)

/-- One iteration of the second `Parent` loop (lines 125–127), reading the
graph as it stands after the first loop. -/
def circStep (parents : List (String × List String)) (idv : String)
    (e : LineErrors) (pid : String) : LineErrors :=
  if (alookup parents pid).isSome && ((alookup parents pid).getD []).contains idv then
    appendList e "parent" ("Circular reference detected for ID: " ++ idv)
  else e

/-- Parent checks (lines 114–127).  A flag-valued `Parent` raises
`AttributeError` at `.split`; `Parent` with no `ID` on the line reaches
`id_value` unassigned at line 120 and raises `UnboundLocalError` (Python's
`parent_ids` list is never empty, so the first loop iteration always reaches
line 120).  The second loop re-reads the graph after the first loop has
already recorded the `parent → id_value` edge for every listed parent. -/
def checkParent (st : VState) (e : LineErrors) (attrs : List (String × AttrVal))
    (idv? : Option String) : Except PyExn (VState × LineErrors) :=
  match alookup attrs "Parent" with
  | none => .ok (st, e)
  | some .flag => .error .attributeError
  | some (.str pv) =>
    match idv? with
    | none => .error .unboundLocalError
    | some idv =>
      let pids := pySplitChar ',' pv
      let p := pids.foldl (parentStep idv) (st, e)
      let e := pids.foldl (circStep p.1.parents idv) p.2
      .ok (p.1, e)

/-- Alias check (lines 129–134). -/
def checkAlias (e : LineErrors) (attrs : List (String × AttrVal)) :
    Except PyExn LineErrors :=
  match alookup attrs "Alias" with
  | none => .ok e
  | some .flag => .error .attributeError
  | some (.str av) =>
    .ok ((pySplitChar ',' av).foldl
      (fun e a =>
        if !idPattern a then appendList e "alias" ("Invalid characters in Alias: " ++ a)
        else e)
      e)

/-- Note check (lines 136–141): `if not note_value` is true exactly for the
empty string. -/
def checkNote (e : LineErrors) (attrs : List (String × AttrVal)) :
    Except PyExn LineErrors :=
  match alookup attrs "Note" with
  | none => .ok e
  | some .flag => .error .attributeError
  | some (.str nv) =>
    .ok ((pySplitChar ',' nv).foldl
      (fun e v => if v = "" then appendList e "note" "Empty Note value" else e)
      e)

/-- Target check (lines 143–160). -/
def checkTarget (st : VState) (e : LineErrors) (attrs : List (String × AttrVal)) :
    Except PyExn LineErrors :=
  match alookup attrs "Target" with
  | none => .ok e
  | some .flag => .error .attributeError
  | some (.str tv) =>
    let toks := pySplitWS tv
    if toks.length < 3 then
      .ok (appendList e "target" ("Invalid Target attribute: " ++ tv))
    else
      let tid := toks.getD 0 ""
      let ts := toks.getD 1 ""
      let te := toks.getD 2 ""
      let e :=
        if !st.seen_ids.contains tid then
          appendList e "target" ("Target ID not found: " ++ tid)
        else e
      match pyInt ts, pyInt te with
      | some a, some b =>
        let e := if a < 1 then appendList e "target" ("Target start position must be >= 1: " ++ ts) else e
        .ok (if b < a then appendList e "target" ("Target end position must be >= start position: " ++ te) else e)
      | _, _ => .ok (appendList e "target" "Invalid Target start or end position")

/-- Derives_from check (lines 162–167). -/
def checkDerives (st : VState) (e : LineErrors) (attrs : List (String × AttrVal)) :
    Except PyExn LineErrors :=
  match alookup attrs "Derives_from" with
  | none => .ok e
  | some .flag => .error .attributeError
  | some (.str dv) =>
    .ok ((pySplitChar ',' dv).foldl
      (fun e v =>
        if !st.seen_ids.contains v then
          appendList e "derives_from" ("Derives_from ID not found: " ++ v)
        else e)
      e)

/-- Gap check (lines 169–180). -/
def checkGap (e : LineErrors) (attrs : List (String × AttrVal)) :
    Except PyExn LineErrors :=
  match alookup attrs "Gap" with
  | none => .ok e
  | some .flag => .error .attributeError
  | some (.str gv) =>
    let toks := pySplitWS gv
    if toks.length < 2 then
      .ok (appendList e "gap" ("Invalid Gap attribute: " ++ gv))
    else
      match pyInt (toks.getD 0 "") with
      | some n =>
        .ok (if n < 0 then appendList e "gap" ("Invalid Gap length: " ++ toks.getD 0 "") else e)
      | none => .ok (appendList e "gap" ("Invalid Gap length: " ++ toks.getD 0 ""))

/-- Replacement check (lines 182–186); `len(True)` raises `TypeError`. -/
def checkReplacement (e : LineErrors) (attrs : List (String × AttrVal)) :
    Except PyExn LineErrors :=
  match alookup attrs "Replacement" with
  | none => .ok e
  | some .flag => .error .typeError
  | some (.str rv) =>
    .ok (if rv.length ≠ 1 then appendList e "replacement" ("Invalid Replacement value: " ++ rv) else e)

/-- Sequence check (lines 188–192); iterating over `True` raises `TypeError`. -/
def checkSequence (e : LineErrors) (attrs : List (String × AttrVal)) :
    Except PyExn LineErrors :=
  match alookup attrs "Sequence" with
  | none => .ok e
  | some .flag => .error .typeError
  | some (.str sv) =>
    .ok (if !sv.data.all isNuc then appendList e "sequence" ("Invalid characters in Sequence: " ++ sv) else e)

/-- Variant_seq check (lines 194–198). -/
def checkVariantSeq (e : LineErrors) (attrs : List (String × AttrVal)) :
    Except PyExn LineErrors :=
  match alookup attrs "Variant_seq" with
  | none => .ok e
  | some .flag => .error .typeError
  | some (.str sv) =>
    .ok (if !sv.data.all isNuc then appendList e "variant_seq" ("Invalid characters in Variant_seq: " ++ sv) else e)

/-- Amino_acid check (lines 200–204). -/
def checkAminoAcid (e : LineErrors) (attrs : List (String × AttrVal)) :
    Except PyExn LineErrors :=
  match alookup attrs "Amino_acid" with
  | none => .ok e
  | some .flag => .error .typeError
  | some (.str sv) =>
    .ok (if !sv.data.all isAA then appendList e "amino_acid" ("Invalid characters in Amino_acid: " ++ sv) else e)

/-- Codon check (lines 206–210). -/
def checkCodon (e : LineErrors) (attrs : List (String × AttrVal)) :
    Except PyExn LineErrors :=
  match alookup attrs "Codon" with
  | none => .ok e
  | some .flag => .error .typeError
  | some (.str cv) =>
    .ok (if cv.length ≠ 3 || !cv.data.all isNuc then appendList e "codon" ("Invalid Codon value: " ++ cv) else e)

/-- The reserved-attribute stages of `validate_line` (lines 100–212), in
source order. -/
def attrStage (st : VState) (e : LineErrors) (attrs : List (String × AttrVal)) :
    Except PyExn (VState × LineErrors) := do
  let (st, e, idv?) ← checkID st e attrs
  let (st, e) ← checkParent st e attrs idv?
  let e ← checkAlias e attrs
  let e ← checkNote e attrs
  let e ← checkTarget st e attrs
  let e ← checkDerives st e attrs
  let e ← checkGap e attrs
  let e ← checkReplacement e attrs
  let e ← checkSequence e attrs
  let e ← checkVariantSeq e attrs
  let e ← checkAminoAcid e attrs
  let e ← checkCodon e attrs
  return (st, e)

/-- `GFF3Validator.validate_line` (lines 28–212).  The state argument plays
the role of `self`; the result pairs the updated state with the returned error
dictionary, and `Except.error` models an escaping Python exception. -/
def validate_line (sch : Schema) (st : VState) (line : String) :
    Except PyExn (VState × LineErrors) :=
  let fields := lineFields line
  if fields.length ≠ 9 then
    .ok (st, [("error", ErrVal.str "Line must have 9 tab-separated fields")])
  else
    let p := fieldStage sch st fields
    attrStage p.1 p.2 (parseAttrs (fields.getD 8 ""))

/-! ## validate_file -/

/-- `errors.setdefault(line_number, {}).update(line_errors)` (line 236).  The
update folds the new pairs into the existing dictionary; in an actual run each
line number is used at most once, so only the fresh-key branch occurs. -/
def reportSetLine (r : Report) (n : Nat) (les : LineErrors) : Report :=
  match alookup r (.line n) with
  | none => r ++ [(RKey.line n, REntry.map les)]
  | some (.map m) =>
    aupdate r (.line n) (.map (les.foldl (fun m kv => aupdate m kv.1 kv.2) m))
  | some (.bare _) => r

/-- `errors.setdefault(child_id, {}).setdefault('parent', []).append(...)`
(line 243). -/
def reportAddChildParentMsg (r : Report) (child pid : String) : Report :=
  match alookup r (.str child) with
  | none =>
    r ++ [(RKey.str child, REntry.map [("parent", ErrVal.list ["Parent ID not found: " ++ pid])])]
  | some (.map m) =>
    aupdate r (.str child) (.map (appendList m "parent" ("Parent ID not found: " ++ pid)))
  | some (.bare _) => r

/-- The per-line loop of `validate_file` (lines 230–237): comment lines are
skipped without incrementing the counter; a raised exception aborts the run. -/
def processLines (sch : Schema) : VState → Nat → Report → List String →
    Except PyExn (VState × Nat × Report)
  | st, n, r, [] => .ok (st, n, r)
  | st, n, r, l :: ls =>
    if pyStartsHash l then processLines sch st n r ls
    else
      match validate_line sch st l with
      | .error ex => .error ex
      | .ok (st', les) =>
        processLines sch st' (n + 1) (if les.isEmpty then r else reportSetLine r n les) ls

/-- The end-of-file unresolved-Parent pass (lines 239–243). -/
def eofParentPass (st : VState) (r : Report) : Report :=
  st.parents.foldl
    (fun r pc =>
      if !st.seen_ids.contains pc.1 then
        pc.2.foldl (fun r child => reportAddChildParentMsg r child pc.1) r
      else r)
    r

/-- The vocabulary-coverage pass (lines 245–248): a bare string is assigned
under the key `'feature_type'`. -/
def eofTypePass (sch : Schema) (st : VState) (r : Report) : Report :=
  if st.feature_types.length ≠ sch.permissible.length then
    aupdate r (RKey.str "feature_type")
      (REntry.bare ("Missing feature types: " ++
        String.intercalate ", " (sch.permissible.filter (fun t => !st.feature_types.contains t))))
  else r

/-- `GFF3Validator.validate_file` (lines 214–250), over the list of lines of
the file.  State is reset at the start of the run (lines 225–227). -/
def validate_file (sch : Schema) (lines : List String) : Except PyExn Report :=
  match processLines sch ⟨[], [], []⟩ 1 [] lines with
  | .error ex => .error ex
  | .ok (st, _, r) => .ok (eofTypePass sch st (eofParentPass st r))

/-! ## Derived notions used in the statements -/

/-- The string-valued `ID` attribute of a 9-field line, if any: the value that
`validate_line` would register in `self.seen_ids`. -/
def idOfLine (line : String) : Option String :=
  if (lineFields line).length ≠ 9 then none
  else
    match alookup (parseAttrs ((lineFields line).getD 8 "")) "ID" with
    | some (.str s) => some s
    | _ => none

/-- Number of non-comment lines of a list (the amount by which the
`line_number` counter of `validate_file` advances). -/
def countNonComment (ls : List String) : Nat :=
  (ls.filter (fun l => !pyStartsHash l)).length

/-- "Category `c` of `e` holds a list containing `msg`." -/
def hasMsg (e : LineErrors) (c msg : String) : Prop :=
  ∃ l, alookup e c = some (ErrVal.list l) ∧ msg ∈ l

/-- "Category `c` of `e` is absent or list-valued" (never a bare string). -/
def noStrAt (e : LineErrors) (c : String) : Prop :=
  alookup e c = none ∨ ∃ l, alookup e c = some (ErrVal.list l)

/-- Some entry of the report carries `msg` in its `parent` category. -/
def reportHasParentMsg (rep : Report) (msg : String) : Prop :=
  ∃ k m l, alookup rep k = some (.map m) ∧ alookup m "parent" = some (ErrVal.list l) ∧ msg ∈ l

/-- No string-keyed (child-ID-keyed) entry of the report carries an
unresolved-Parent message for `X`; such entries are exactly the ones the
end-of-file reconciliation pass can add. -/
def noChildParentMsg (rep : Report) (X : String) : Prop :=
  ∀ s m l, alookup rep (RKey.str s) = some (.map m) →
    alookup m "parent" = some (ErrVal.list l) → ("Parent ID not found: " ++ X) ∉ l

/-- Every entry of the report is a category map. -/
def mapsOnly (rep : Report) : Prop :=
  ∀ k en, alookup rep k = some en → ∃ m, en = REntry.map m

/-- Every entry of the report is a category map, except possibly the bare
vocabulary-coverage string stored under the key `"feature_type"`. -/
def reportShape (rep : Report) : Prop :=
  ∀ k en, alookup rep k = some en →
    (∃ m, en = REntry.map m) ∨ (k = RKey.str "feature_type" ∧ ∃ s, en = REntry.bare s)

/-- Modelled from the spec (claim C8's wording): the key/value reading of one
`;`-segment — a segment containing `=` maps the part before the first `=` to
the remainder, any other segment is a boolean flag. -/
def segKVspec (seg : String) : String × AttrVal :=
  if seg.data.contains '=' then
    (String.mk (splitFirstChar '=' seg.data).1, .str (String.mk (splitFirstChar '=' seg.data).2))
  else (seg, .flag)

/-- Modelled from the spec (claim C8's wording): the attribute value obtained
for key `k` by splitting on `;`, reading each segment with `segKVspec`, and
letting the last occurrence of a key win. -/
def specAttrLookup (s k : String) : Option AttrVal :=
  ((((pySplitChar ';' s).map segKVspec).filter (fun p => p.1 = k)).getLast?).map (fun p => p.2)

/-! ## Concrete schemas for test inputs -/

/-- A type-checking capability that accepts everything, with a configurable
permissible-type vocabulary. -/
def allAccept (perm : List String) : Schema :=
  { hasClass := fun _ => true
    classTypeof := fun _ _ => true
    hasSlot := fun _ => true
    slotTypeof := fun _ _ => true
    permissible := perm }

/-! ## Concrete input lines used in tests, witnesses and counterexamples -/

/-- A fully valid feature line declaring `ID=gene1`. -/
def lineGene : String := "chr1\tsrc\tgene\t1\t10\t.\t+\t.\tID=gene1"

/-- A fully valid feature line declaring `ID=mrna1` with `Parent=gene1`. -/
def lineMRNA : String := "chr1\tsrc\tmRNA\t1\t5\t.\t+\t.\tID=mrna1;Parent=gene1"

/-- A 9-field line whose attributes carry `Parent` but no `ID`. -/
def lineParentNoID : String := "chr1\tsrc\tgene\t1\t10\t.\t+\t.\tParent=X"

/-- A 9-field line whose `ID` value `a b` violates the ID character pattern. -/
def lineDupBad : String := "chr1\tsrc\tgene\t1\t10\t.\t+\t.\tID=a b"

/-- A 9-field line referencing a parent `X` that is never declared. -/
def lineOrphan : String := "chr1\tsrc\tgene\t1\t10\t.\t+\t.\tID=a;Parent=X"

/-- A 9-field line with `start=0` and `end=-1`. -/
def lineBadPos : String := "chr1\tsrc\tgene\t0\t-1\t.\t+\t.\tID=a"

/-- A 9-field line whose `Gap` value is the single token `5`. -/
def lineGap1 : String := "chr1\tsrc\tgene\t1\t10\t.\t+\t.\tID=a;Gap=5"

/-- A 9-field line whose `Gap` value has two tokens, the first the integer
`5`. -/
def lineGap2 : String := "chr1\tsrc\tgene\t1\t10\t.\t+\t.\tID=a;Gap=5 M3"

/-- A line that does not have 9 tab-separated fields. -/
def lineShort : String := "bad"

/-- A fully valid feature line declaring `ID=good` (pattern-conformant). -/
def lineGood : String := "chr1\tsrc\tgene\t1\t10\t.\t+\t.\tID=good"

/-- The property claimed of the report structure: every entry is a mapping
whose values are all ordered lists of messages. -/
def allListValued (rep : Report) : Prop :=
  ∀ k en, alookup rep k = some en →
    ∃ m, en = REntry.map m ∧ ∀ c v, alookup m c = some v → ∃ l, v = ErrVal.list l

/-! ## Association-list lemmas -/

theorem alookup_aupdate_self {κ α : Type} [DecidableEq κ] (m : List (κ × α)) (k : κ) (v : α) :
    alookup (aupdate m k v) k = some v := by
  induction m with
  | nil => simp [aupdate, alookup]
  | cons hd tl ih =>
    by_cases h : hd.1 = k
    · simp [aupdate, alookup, h]
    · simpa [aupdate, alookup, h] using ih

theorem alookup_aupdate_ne {κ α : Type} [DecidableEq κ] (m : List (κ × α)) {k k' : κ} (v : α)
    (h : k' ≠ k) : alookup (aupdate m k v) k' = alookup m k' := by
  induction m with
  | nil =>
    simp only [aupdate, alookup]
    rw [if_neg (Ne.symm h)]
  | cons hd tl ih =>
    obtain ⟨a, b⟩ := hd
    by_cases hh : a = k
    · subst hh
      simp only [aupdate, if_pos rfl, alookup]
      rw [if_neg (Ne.symm h), if_neg (Ne.symm h)]
    · simp only [aupdate, if_neg hh, alookup]
      by_cases hh' : a = k'
      · rw [if_pos hh', if_pos hh']
      · rw [if_neg hh', if_neg hh']
        exact ih

theorem alookup_append_some {κ α : Type} [DecidableEq κ] {m : List (κ × α)}
    (m' : List (κ × α)) {k : κ} {v : α} (h : alookup m k = some v) :
    alookup (m ++ m') k = some v := by
  induction m with
  | nil => simp [alookup] at h
  | cons hd tl ih =>
    obtain ⟨a, b⟩ := hd
    by_cases hh : a = k
    · simp only [List.cons_append, alookup, if_pos hh] at h ⊢
      exact h
    · simp only [List.cons_append, alookup, if_neg hh] at h ⊢
      exact ih h

/-! ## Error-dictionary lemmas -/

theorem lookup_assign_self (e : LineErrors) (c m : String) :
    alookup (assign e c m) c = some (.str m) :=
  alookup_aupdate_self e c (.str m)

theorem lookup_assign_ne (e : LineErrors) {c c' : String} (m : String) (h : c' ≠ c) :
    alookup (assign e c m) c' = alookup e c' :=
  alookup_aupdate_ne e (.str m) h

theorem lookup_appendList_ne (e : LineErrors) {c c' : String} (m : String) (h : c' ≠ c) :
    alookup (appendList e c m) c' = alookup e c' := by
  unfold appendList
  cases hv : alookup e c with
  | none => exact alookup_aupdate_ne e _ h
  | some v =>
    cases v with
    | str s => rfl
    | list l => exact alookup_aupdate_ne e _ h

theorem hasMsg_appendList {e : LineErrors} {c msg : String} (c' m' : String)
    (h : hasMsg e c msg) : hasMsg (appendList e c' m') c msg := by
  obtain ⟨l, hl, hm⟩ := h
  by_cases hc : c' = c
  · subst hc
    refine ⟨l ++ [m'], ?_, List.mem_append_left _ hm⟩
    unfold appendList
    rw [hl]
    exact alookup_aupdate_self e c' _
  · exact ⟨l, by rw [lookup_appendList_ne e m' (fun hh => hc hh.symm)]; exact hl, hm⟩

theorem hasMsg_assign_ne {e : LineErrors} {c msg : String} {c' : String} (m' : String)
    (h : hasMsg e c msg) (hne : c' ≠ c) : hasMsg (assign e c' m') c msg := by
  obtain ⟨l, hl, hm⟩ := h
  exact ⟨l, by rw [lookup_assign_ne e m' (fun hh => hne hh.symm)]; exact hl, hm⟩

theorem hasMsg_appendList_self {e : LineErrors} {c : String} (msg : String)
    (h : noStrAt e c) : hasMsg (appendList e c msg) c msg := by
  unfold appendList
  cases h with
  | inl h0 =>
    rw [h0]
    exact ⟨[msg], alookup_aupdate_self e c _, List.mem_singleton.mpr rfl⟩
  | inr h1 =>
    obtain ⟨l, hl⟩ := h1
    rw [hl]
    exact ⟨l ++ [msg], alookup_aupdate_self e c _, List.mem_append_right _ (List.mem_singleton.mpr rfl)⟩

theorem noStrAt_appendList {e : LineErrors} {c : String} (c' m' : String)
    (h : noStrAt e c) : noStrAt (appendList e c' m') c := by
  by_cases hc : c' = c
  · subst hc
    unfold appendList
    cases h with
    | inl h0 => rw [h0]; exact .inr ⟨[m'], alookup_aupdate_self e c' _⟩
    | inr h1 =>
      obtain ⟨l, hl⟩ := h1
      rw [hl]
      exact .inr ⟨l ++ [m'], alookup_aupdate_self e c' _⟩
  · unfold noStrAt
    rw [lookup_appendList_ne e m' (fun hh => hc hh.symm)]
    exact h

theorem noStrAt_assign_ne {e : LineErrors} {c : String} {c' : String} (m' : String)
    (h : noStrAt e c) (hne : c' ≠ c) : noStrAt (assign e c' m') c := by
  unfold noStrAt
  rw [lookup_assign_ne e m' (fun hh => hne hh.symm)]
  exact h

/-! ## Generic fold lemmas -/

theorem alookup_foldl {α : Type} {f : LineErrors → α → LineErrors} {c : String}
    (hf : ∀ e x, alookup (f e x) c = alookup e c) :
    ∀ (l : List α) (e : LineErrors), alookup (l.foldl f e) c = alookup e c := by
  intro l
  induction l with
  | nil => intro e; rfl
  | cons hd tl ih => intro e; rw [List.foldl_cons, ih, hf]

theorem hasMsg_foldl {α : Type} {f : LineErrors → α → LineErrors} {c msg : String}
    (hf : ∀ e x, hasMsg e c msg → hasMsg (f e x) c msg) :
    ∀ (l : List α) (e : LineErrors), hasMsg e c msg → hasMsg (l.foldl f e) c msg := by
  intro l
  induction l with
  | nil => intro e h; exact h
  | cons hd tl ih => intro e h; rw [List.foldl_cons]; exact ih _ (hf e hd h)

/-! ## Field-stage lemmas -/

theorem cat_ne_attr {c : String} (h : c.length < 10) : ∀ k : String, c ≠ "attribute." ++ k := by
  intro k heq
  have hlen : c.length = ("attribute." ++ k).length := by rw [heq]
  rw [String.length_append] at hlen
  have h10 : ("attribute." : String).length = 10 := rfl
  omega

theorem seqidErr_lookup_ne (sch : Schema) (e : LineErrors) (s : String) {c : String}
    (h : c ≠ "seqid") : alookup (seqidErr sch e s) c = alookup e c := by
  unfold seqidErr
  split
  · exact lookup_assign_ne e _ h
  · rfl

theorem sourceErr_lookup_ne (sch : Schema) (e : LineErrors) (s : String) {c : String}
    (h : c ≠ "source") : alookup (sourceErr sch e s) c = alookup e c := by
  unfold sourceErr
  split
  · exact lookup_assign_ne e _ h
  · rfl

theorem typeCheck_snd_lookup_ne (sch : Schema) (st : VState) (e : LineErrors) (t : String)
    {c : String} (h : c ≠ "type") : alookup (typeCheck sch st e t).2 c = alookup e c := by
  unfold typeCheck
  split
  · exact lookup_assign_ne e _ h
  · rfl

theorem typeCheck_fst_seen (sch : Schema) (st : VState) (e : LineErrors) (t : String) :
    (typeCheck sch st e t).1.seen_ids = st.seen_ids := by
  unfold typeCheck
  split <;> rfl

theorem typeCheck_fst_parents (sch : Schema) (st : VState) (e : LineErrors) (t : String) :
    (typeCheck sch st e t).1.parents = st.parents := by
  unfold typeCheck
  split <;> rfl

theorem startEndErr_lookup_ne (e : LineErrors) (start endv : String) {c : String}
    (h1 : c ≠ "start") (h2 : c ≠ "end") :
    alookup (startEndErr e start endv) c = alookup e c := by
  unfold startEndErr
  cases pyInt start with
  | none => rw [lookup_assign_ne _ _ h2, lookup_assign_ne _ _ h1]
  | some a =>
    cases pyInt endv with
    | none => rw [lookup_assign_ne _ _ h2, lookup_assign_ne _ _ h1]
    | some b =>
      dsimp only
      by_cases h3 : a < 1
      · rw [if_pos h3]
        by_cases h4 : b < a
        · rw [if_pos h4, lookup_assign_ne _ _ h2, lookup_assign_ne _ _ h1]
        · rw [if_neg h4, lookup_assign_ne _ _ h1]
      · rw [if_neg h3]
        by_cases h4 : b < a
        · rw [if_pos h4, lookup_assign_ne _ _ h2]
        · rw [if_neg h4]

theorem scoreErr_lookup_ne (sch : Schema) (e : LineErrors) (s : String) {c : String}
    (h : c ≠ "score") : alookup (scoreErr sch e s) c = alookup e c := by
  unfold scoreErr
  split
  · exact lookup_assign_ne e _ h
  · rfl

theorem strandErr_lookup_ne (e : LineErrors) (s : String) {c : String}
    (h : c ≠ "strand") : alookup (strandErr e s) c = alookup e c := by
  unfold strandErr
  split
  · exact lookup_assign_ne e _ h
  · rfl

theorem phaseErr_lookup_ne (sch : Schema) (e : LineErrors) (s : String) {c : String}
    (h : c ≠ "phase") : alookup (phaseErr sch e s) c = alookup e c := by
  unfold phaseErr
  split
  · exact lookup_assign_ne e _ h
  · rfl

theorem genericAttrErrs_lookup (sch : Schema) (attrs : List (String × AttrVal))
    (e : LineErrors) {c : String} (hattr : ∀ k : String, c ≠ "attribute." ++ k) :
    alookup (genericAttrErrs sch e attrs) c = alookup e c := by
  unfold genericAttrErrs
  refine alookup_foldl ?_ attrs e
  intro e kv
  split
  · exact lookup_assign_ne e _ (hattr kv.1)
  · rfl

theorem fieldStage_lookup (sch : Schema) (st : VState) (fields : List String) {c : String}
    (h1 : c ≠ "seqid") (h2 : c ≠ "source") (h3 : c ≠ "type") (h4 : c ≠ "start")
    (h5 : c ≠ "end") (h6 : c ≠ "score") (h7 : c ≠ "strand") (h8 : c ≠ "phase")
    (hattr : ∀ k : String, c ≠ "attribute." ++ k) :
    alookup (fieldStage sch st fields).2 c = none := by
  unfold fieldStage
  dsimp only
  rw [genericAttrErrs_lookup _ _ _ hattr, phaseErr_lookup_ne _ _ _ h8,
    strandErr_lookup_ne _ _ h7, scoreErr_lookup_ne _ _ _ h6,
    startEndErr_lookup_ne _ _ _ h4 h5, typeCheck_snd_lookup_ne _ _ _ _ h3,
    sourceErr_lookup_ne _ _ _ h2, seqidErr_lookup_ne _ _ _ h1]
  rfl

theorem fieldStage_seen (sch : Schema) (st : VState) (fields : List String) :
    (fieldStage sch st fields).1.seen_ids = st.seen_ids := by
  unfold fieldStage
  dsimp only
  rw [typeCheck_fst_seen]

theorem fieldStage_parents (sch : Schema) (st : VState) (fields : List String) :
    (fieldStage sch st fields).1.parents = st.parents := by
  unfold fieldStage
  dsimp only
  rw [typeCheck_fst_parents]

/-! ## checkID lemmas -/

theorem checkID_cases {st : VState} {e : LineErrors} {attrs : List (String × AttrVal)}
    {st' : VState} {e' : LineErrors} {idv? : Option String}
    (hok : checkID st e attrs = .ok (st', e', idv?)) :
    (alookup attrs "ID" = none ∧ st' = st ∧ e' = e ∧ idv? = none) ∨
    (∃ idv, alookup attrs "ID" = some (.str idv) ∧ idv? = some idv ∧
      st'.parents = st.parents ∧ st'.feature_types = st.feature_types ∧
      ((st.seen_ids.contains idv = true ∧ st'.seen_ids = st.seen_ids) ∨
       (st.seen_ids.contains idv = false ∧ st'.seen_ids = st.seen_ids ++ [idv])) ∧
      (∀ c, c ≠ "id" → alookup e' c = alookup e c)) := by
  unfold checkID at hok
  cases hid : alookup attrs "ID" with
  | none =>
    rw [hid] at hok
    cases hok
    exact .inl ⟨rfl, rfl, rfl, rfl⟩
  | some v =>
    cases v with
    | flag => rw [hid] at hok; simp at hok
    | str idv =>
      rw [hid] at hok
      dsimp only at hok
      right
      refine ⟨idv, rfl, ?_⟩
      by_cases hseen : st.seen_ids.contains idv
      · rw [if_pos hseen] at hok
        by_cases hpat : idPattern idv
        · rw [hpat] at hok
          simp only [Bool.not_true, Bool.false_eq_true, if_false] at hok
          cases hok
          exact ⟨rfl, rfl, rfl, .inl ⟨hseen, rfl⟩,
            fun c hc => lookup_assign_ne e _ hc⟩
        · rw [Bool.not_eq_true] at hpat
          rw [hpat] at hok
          simp only [Bool.not_false, if_true] at hok
          cases hok
          refine ⟨rfl, rfl, rfl, .inl ⟨hseen, rfl⟩, fun c hc => ?_⟩
          rw [lookup_assign_ne _ _ hc, lookup_assign_ne _ _ hc]
      · rw [if_neg hseen] at hok
        by_cases hpat : idPattern idv
        · rw [hpat] at hok
          simp only [Bool.not_true, Bool.false_eq_true, if_false] at hok
          cases hok
          exact ⟨rfl, rfl, rfl, .inr ⟨Bool.not_eq_true _ ▸ (by simpa using hseen), rfl⟩,
            fun c hc => rfl⟩
        · rw [Bool.not_eq_true] at hpat
          rw [hpat] at hok
          simp only [Bool.not_false, if_true] at hok
          cases hok
          exact ⟨rfl, rfl, rfl, .inr ⟨by simpa using hseen, rfl⟩,
            fun c hc => lookup_assign_ne e _ hc⟩

theorem checkID_lookup_ne {st : VState} {e : LineErrors} {attrs : List (String × AttrVal)}
    {st' : VState} {e' : LineErrors} {idv? : Option String}
    (hok : checkID st e attrs = .ok (st', e', idv?)) {c : String} (hc : c ≠ "id") :
    alookup e' c = alookup e c := by
  rcases checkID_cases hok with ⟨_, _, he, _⟩ | ⟨idv, _, _, _, _, _, hl⟩
  · rw [he]
  · exact hl c hc

theorem checkID_seen_mono {st : VState} {e : LineErrors} {attrs : List (String × AttrVal)}
    {st' : VState} {e' : LineErrors} {idv? : Option String}
    (hok : checkID st e attrs = .ok (st', e', idv?)) {x : String} (hx : x ∈ st.seen_ids) :
    x ∈ st'.seen_ids := by
  rcases checkID_cases hok with ⟨_, hst, _, _⟩ | ⟨idv, _, _, _, _, hs, _⟩
  · rw [hst]; exact hx
  · rcases hs with ⟨_, hs⟩ | ⟨_, hs⟩
    · rw [hs]; exact hx
    · rw [hs]; exact List.mem_append_left _ hx

theorem checkID_seen_sub {st : VState} {e : LineErrors} {attrs : List (String × AttrVal)}
    {st' : VState} {e' : LineErrors} {idv? : Option String}
    (hok : checkID st e attrs = .ok (st', e', idv?)) {x : String} (hx : x ∈ st'.seen_ids) :
    x ∈ st.seen_ids ∨ alookup attrs "ID" = some (.str x) := by
  rcases checkID_cases hok with ⟨_, hst, _, _⟩ | ⟨idv, hid, _, _, _, hs, _⟩
  · rw [hst] at hx; exact .inl hx
  · rcases hs with ⟨_, hs⟩ | ⟨_, hs⟩
    · rw [hs] at hx; exact .inl hx
    · rw [hs] at hx
      rcases List.mem_append.mp hx with hx | hx
      · exact .inl hx
      · rcases List.mem_singleton.mp hx with rfl
        exact .inr hid

theorem checkID_registers {st : VState} {e : LineErrors} {attrs : List (String × AttrVal)}
    {st' : VState} {e' : LineErrors} {idv? : Option String}
    (hok : checkID st e attrs = .ok (st', e', idv?)) {x : String}
    (hid : alookup attrs "ID" = some (.str x)) : x ∈ st'.seen_ids := by
  rcases checkID_cases hok with ⟨hnone, _, _, _⟩ | ⟨idv, hid', _, _, _, hs, _⟩
  · rw [hnone] at hid; cases hid
  · rw [hid'] at hid
    cases hid
    rcases hs with ⟨hc, hs⟩ | ⟨_, hs⟩
    · rw [hs]; simpa using hc
    · rw [hs]; exact List.mem_append_right _ (List.mem_singleton.mpr rfl)

theorem checkID_idv {st : VState} {e : LineErrors} {attrs : List (String × AttrVal)}
    {st' : VState} {e' : LineErrors} {idv? : Option String}
    (hok : checkID st e attrs = .ok (st', e', idv?)) :
    (idv? = none ∧ alookup attrs "ID" = none) ∨
    (∃ v, idv? = some v ∧ alookup attrs "ID" = some (.str v)) := by
  rcases checkID_cases hok with ⟨hnone, _, _, hi⟩ | ⟨idv, hid, hi, _⟩
  · exact .inl ⟨hi, hnone⟩
  · exact .inr ⟨idv, hi, hid⟩

/-! ## checkParent lemmas -/

theorem parentStep_seen (idv : String) (p : VState × LineErrors) (pid : String) :
    (parentStep idv p pid).1.seen_ids = p.1.seen_ids := rfl

theorem parentFold_seen (idv : String) :
    ∀ (pids : List String) (p : VState × LineErrors),
      (pids.foldl (parentStep idv) p).1.seen_ids = p.1.seen_ids := by
  intro pids
  induction pids with
  | nil => intro p; rfl
  | cons hd tl ih => intro p; rw [List.foldl_cons, ih, parentStep_seen]

theorem parentFold_types (idv : String) :
    ∀ (pids : List String) (p : VState × LineErrors),
      (pids.foldl (parentStep idv) p).1.feature_types = p.1.feature_types := by
  intro pids
  induction pids with
  | nil => intro p; rfl
  | cons hd tl ih => intro p; rw [List.foldl_cons, ih]; rfl

theorem parentFold_lookup_ne (idv : String) {c : String} (hc : c ≠ "parent") :
    ∀ (pids : List String) (p : VState × LineErrors),
      alookup (pids.foldl (parentStep idv) p).2 c = alookup p.2 c := by
  intro pids
  induction pids with
  | nil => intro p; rfl
  | cons hd tl ih =>
    intro p
    rw [List.foldl_cons, ih]
    unfold parentStep
    dsimp only
    split
    · exact lookup_appendList_ne _ _ hc
    · rfl

theorem parentFold_hasMsg (idv : String) {c m : String} :
    ∀ (pids : List String) (p : VState × LineErrors),
      hasMsg p.2 c m → hasMsg (pids.foldl (parentStep idv) p).2 c m := by
  intro pids
  induction pids with
  | nil => intro p h; exact h
  | cons hd tl ih =>
    intro p h
    rw [List.foldl_cons]
    refine ih _ ?_
    unfold parentStep
    dsimp only
    split
    · exact hasMsg_appendList _ _ h
    · exact h

theorem parentFold_noStr (idv : String) {c : String} :
    ∀ (pids : List String) (p : VState × LineErrors),
      noStrAt p.2 c → noStrAt (pids.foldl (parentStep idv) p).2 c := by
  intro pids
  induction pids with
  | nil => intro p h; exact h
  | cons hd tl ih =>
    intro p h
    rw [List.foldl_cons]
    refine ih _ ?_
    unfold parentStep
    dsimp only
    split
    · exact noStrAt_appendList _ _ h
    · exact h

theorem parentFold_notfound (idv : String) {X : String} :
    ∀ (pids : List String) (p : VState × LineErrors), X ∈ pids →
      p.1.seen_ids.contains X = false → noStrAt p.2 "parent" →
      hasMsg (pids.foldl (parentStep idv) p).2 "parent" ("Parent ID not found: " ++ X) := by
  intro pids
  induction pids with
  | nil => intro p hX; cases hX
  | cons hd tl ih =>
    intro p hX hseen hns
    rw [List.foldl_cons]
    rcases List.mem_cons.mp hX with rfl | hX
    · refine parentFold_hasMsg idv tl _ ?_
      unfold parentStep
      dsimp only
      rw [hseen]
      simp only [Bool.not_false, if_true]
      exact hasMsg_appendList_self _ hns
    · refine ih _ hX ?_ ?_
      · rw [parentStep_seen]; exact hseen
      · unfold parentStep
        dsimp only
        split
        · exact noStrAt_appendList _ _ hns
        · exact hns

theorem circFold_lookup_ne (parents : List (String × List String)) (idv : String)
    {c : String} (hc : c ≠ "parent") :
    ∀ (pids : List String) (e : LineErrors),
      alookup (pids.foldl (circStep parents idv) e) c = alookup e c := by
  refine alookup_foldl ?_
  intro e pid
  unfold circStep
  split
  · exact lookup_appendList_ne _ _ hc
  · rfl

theorem circFold_hasMsg (parents : List (String × List String)) (idv : String)
    {c m : String} :
    ∀ (pids : List String) (e : LineErrors),
      hasMsg e c m → hasMsg (pids.foldl (circStep parents idv) e) c m := by
  refine hasMsg_foldl ?_
  intro e pid h
  unfold circStep
  split
  · exact hasMsg_appendList _ _ h
  · exact h

theorem checkParent_state {st : VState} {e : LineErrors} {attrs : List (String × AttrVal)}
    {idv? : Option String} {st' : VState} {e' : LineErrors}
    (hok : checkParent st e attrs idv? = .ok (st', e')) :
    st'.seen_ids = st.seen_ids ∧ st'.feature_types = st.feature_types := by
  unfold checkParent at hok
  cases hp : alookup attrs "Parent" with
  | none => rw [hp] at hok; cases hok; exact ⟨rfl, rfl⟩
  | some v =>
    cases v with
    | flag => rw [hp] at hok; simp at hok
    | str pv =>
      rw [hp] at hok
      cases idv? with
      | none => simp at hok
      | some idv =>
        dsimp only at hok
        cases hok
        exact ⟨parentFold_seen idv _ _, parentFold_types idv _ _⟩

theorem checkParent_lookup_ne {st : VState} {e : LineErrors} {attrs : List (String × AttrVal)}
    {idv? : Option String} {st' : VState} {e' : LineErrors}
    (hok : checkParent st e attrs idv? = .ok (st', e')) {c : String} (hc : c ≠ "parent") :
    alookup e' c = alookup e c := by
  unfold checkParent at hok
  cases hp : alookup attrs "Parent" with
  | none => rw [hp] at hok; cases hok; rfl
  | some v =>
    cases v with
    | flag => rw [hp] at hok; simp at hok
    | str pv =>
      rw [hp] at hok
      cases idv? with
      | none => simp at hok
      | some idv =>
        dsimp only at hok
        cases hok
        rw [circFold_lookup_ne _ _ hc, parentFold_lookup_ne _ hc]

theorem checkParent_hasMsg {st : VState} {e : LineErrors} {attrs : List (String × AttrVal)}
    {idv? : Option String} {st' : VState} {e' : LineErrors}
    (hok : checkParent st e attrs idv? = .ok (st', e')) {c m : String}
    (h : hasMsg e c m) : hasMsg e' c m := by
  unfold checkParent at hok
  cases hp : alookup attrs "Parent" with
  | none => rw [hp] at hok; cases hok; exact h
  | some v =>
    cases v with
    | flag => rw [hp] at hok; simp at hok
    | str pv =>
      rw [hp] at hok
      cases idv? with
      | none => simp at hok
      | some idv =>
        dsimp only at hok
        cases hok
        exact circFold_hasMsg _ _ _ _ (parentFold_hasMsg idv _ _ h)

theorem checkParent_notfound {st : VState} {e : LineErrors} {attrs : List (String × AttrVal)}
    {idv? : Option String} {st' : VState} {e' : LineErrors} {pv X : String}
    (hok : checkParent st e attrs idv? = .ok (st', e'))
    (hp : alookup attrs "Parent" = some (.str pv)) (hX : X ∈ pySplitChar ',' pv)
    (hs : st.seen_ids.contains X = false) (hns : noStrAt e "parent") :
    hasMsg e' "parent" ("Parent ID not found: " ++ X) := by
  unfold checkParent at hok
  rw [hp] at hok
  cases idv? with
  | none => simp at hok
  | some idv =>
    dsimp only at hok
    cases hok
    exact circFold_hasMsg _ _ _ _ (parentFold_notfound idv _ _ hX hs hns)

/-! ## Simple attribute-stage lemmas -/

theorem checkAlias_lookup_ne {e : LineErrors} {attrs : List (String × AttrVal)} {e' : LineErrors}
    (hok : checkAlias e attrs = .ok e') {c : String} (hc : c ≠ "alias") :
    alookup e' c = alookup e c := by
  unfold checkAlias at hok
  cases hA : alookup attrs "Alias" with
  | none => rw [hA] at hok; cases hok; rfl
  | some v =>
    cases v with
    | flag => rw [hA] at hok; simp at hok
    | str av =>
      rw [hA] at hok
      cases hok
      refine alookup_foldl ?_ _ e
      intro e a
      split
      · exact lookup_appendList_ne _ _ hc
      · rfl

theorem checkAlias_hasMsg {e : LineErrors} {attrs : List (String × AttrVal)} {e' : LineErrors}
    (hok : checkAlias e attrs = .ok e') {c m : String} (h : hasMsg e c m) : hasMsg e' c m := by
  unfold checkAlias at hok
  cases hA : alookup attrs "Alias" with
  | none => rw [hA] at hok; cases hok; exact h
  | some v =>
    cases v with
    | flag => rw [hA] at hok; simp at hok
    | str av =>
      rw [hA] at hok
      cases hok
      refine hasMsg_foldl ?_ _ e h
      intro e a h
      split
      · exact hasMsg_appendList _ _ h
      · exact h

theorem checkNote_lookup_ne {e : LineErrors} {attrs : List (String × AttrVal)} {e' : LineErrors}
    (hok : checkNote e attrs = .ok e') {c : String} (hc : c ≠ "note") :
    alookup e' c = alookup e c := by
  unfold checkNote at hok
  cases hA : alookup attrs "Note" with
  | none => rw [hA] at hok; cases hok; rfl
  | some v =>
    cases v with
    | flag => rw [hA] at hok; simp at hok
    | str nv =>
      rw [hA] at hok
      cases hok
      refine alookup_foldl ?_ _ e
      intro e a
      split
      · exact lookup_appendList_ne _ _ hc
      · rfl

theorem checkNote_hasMsg {e : LineErrors} {attrs : List (String × AttrVal)} {e' : LineErrors}
    (hok : checkNote e attrs = .ok e') {c m : String} (h : hasMsg e c m) : hasMsg e' c m := by
  unfold checkNote at hok
  cases hA : alookup attrs "Note" with
  | none => rw [hA] at hok; cases hok; exact h
  | some v =>
    cases v with
    | flag => rw [hA] at hok; simp at hok
    | str nv =>
      rw [hA] at hok
      cases hok
      refine hasMsg_foldl ?_ _ e h
      intro e a h
      split
      · exact hasMsg_appendList _ _ h
      · exact h

theorem checkTarget_lookup_ne {st : VState} {e : LineErrors} {attrs : List (String × AttrVal)}
    {e' : LineErrors} (hok : checkTarget st e attrs = .ok e') {c : String}
    (hc : c ≠ "target") : alookup e' c = alookup e c := by
  unfold checkTarget at hok
  cases hA : alookup attrs "Target" with
  | none => rw [hA] at hok; cases hok; rfl
  | some v =>
    cases v with
    | flag => rw [hA] at hok; simp at hok
    | str tv =>
      rw [hA] at hok
      dsimp only at hok
      by_cases hlen : (pySplitWS tv).length < 3
      · rw [if_pos hlen] at hok
        cases hok
        exact lookup_appendList_ne _ _ hc
      · rw [if_neg hlen] at hok
        cases hps : pyInt ((pySplitWS tv).getD 1 "") with
        | none =>
          rw [hps] at hok
          cases hpe : pyInt ((pySplitWS tv).getD 2 "") with
          | none =>
            rw [hpe] at hok
            cases hok
            rw [lookup_appendList_ne _ _ hc]
            split
            · exact lookup_appendList_ne _ _ hc
            · rfl
          | some b =>
            rw [hpe] at hok
            cases hok
            rw [lookup_appendList_ne _ _ hc]
            split
            · exact lookup_appendList_ne _ _ hc
            · rfl
        | some a =>
          rw [hps] at hok
          cases hpe : pyInt ((pySplitWS tv).getD 2 "") with
          | none =>
            rw [hpe] at hok
            cases hok
            rw [lookup_appendList_ne _ _ hc]
            split
            · exact lookup_appendList_ne _ _ hc
            · rfl
          | some b =>
            rw [hpe] at hok
            dsimp only at hok
            cases hok
            split
            · rw [lookup_appendList_ne _ _ hc]
              split
              · rw [lookup_appendList_ne _ _ hc]
                split
                · exact lookup_appendList_ne _ _ hc
                · rfl
              · split
                · exact lookup_appendList_ne _ _ hc
                · rfl
            · split
              · rw [lookup_appendList_ne _ _ hc]
                split
                · exact lookup_appendList_ne _ _ hc
                · rfl
              · split
                · exact lookup_appendList_ne _ _ hc
                · rfl

theorem checkTarget_hasMsg {st : VState} {e : LineErrors} {attrs : List (String × AttrVal)}
    {e' : LineErrors} (hok : checkTarget st e attrs = .ok e') {c m : String}
    (h : hasMsg e c m) : hasMsg e' c m := by
  unfold checkTarget at hok
  cases hA : alookup attrs "Target" with
  | none => rw [hA] at hok; cases hok; exact h
  | some v =>
    cases v with
    | flag => rw [hA] at hok; simp at hok
    | str tv =>
      rw [hA] at hok
      dsimp only at hok
      by_cases hlen : (pySplitWS tv).length < 3
      · rw [if_pos hlen] at hok
        cases hok
        exact hasMsg_appendList _ _ h
      · rw [if_neg hlen] at hok
        have h1 : hasMsg (if !st.seen_ids.contains ((pySplitWS tv).getD 0 "") then
            appendList e "target" ("Target ID not found: " ++ (pySplitWS tv).getD 0 "")
          else e) c m := by
          split
          · exact hasMsg_appendList _ _ h
          · exact h
        cases hps : pyInt ((pySplitWS tv).getD 1 "") with
        | none =>
          rw [hps] at hok
          cases hpe : pyInt ((pySplitWS tv).getD 2 "") with
          | none => rw [hpe] at hok; cases hok; exact hasMsg_appendList _ _ h1
          | some b => rw [hpe] at hok; cases hok; exact hasMsg_appendList _ _ h1
        | some a =>
          rw [hps] at hok
          cases hpe : pyInt ((pySplitWS tv).getD 2 "") with
          | none => rw [hpe] at hok; cases hok; exact hasMsg_appendList _ _ h1
          | some b =>
            rw [hpe] at hok
            dsimp only at hok
            cases hok
            split
            · split
              · exact hasMsg_appendList _ _ (hasMsg_appendList _ _ h1)
              · exact hasMsg_appendList _ _ h1
            · split
              · exact hasMsg_appendList _ _ h1
              · exact h1

theorem checkDerives_lookup_ne {st : VState} {e : LineErrors} {attrs : List (String × AttrVal)}
    {e' : LineErrors} (hok : checkDerives st e attrs = .ok e') {c : String}
    (hc : c ≠ "derives_from") : alookup e' c = alookup e c := by
  unfold checkDerives at hok
  cases hA : alookup attrs "Derives_from" with
  | none => rw [hA] at hok; cases hok; rfl
  | some v =>
    cases v with
    | flag => rw [hA] at hok; simp at hok
    | str dv =>
      rw [hA] at hok
      cases hok
      refine alookup_foldl ?_ _ e
      intro e a
      split
      · exact lookup_appendList_ne _ _ hc
      · rfl

theorem checkDerives_hasMsg {st : VState} {e : LineErrors} {attrs : List (String × AttrVal)}
    {e' : LineErrors} (hok : checkDerives st e attrs = .ok e') {c m : String}
    (h : hasMsg e c m) : hasMsg e' c m := by
  unfold checkDerives at hok
  cases hA : alookup attrs "Derives_from" with
  | none => rw [hA] at hok; cases hok; exact h
  | some v =>
    cases v with
    | flag => rw [hA] at hok; simp at hok
    | str dv =>
      rw [hA] at hok
      cases hok
      refine hasMsg_foldl ?_ _ e h
      intro e a h
      split
      · exact hasMsg_appendList _ _ h
      · exact h

theorem checkGap_lookup_ne {e : LineErrors} {attrs : List (String × AttrVal)} {e' : LineErrors}
    (hok : checkGap e attrs = .ok e') {c : String} (hc : c ≠ "gap") :
    alookup e' c = alookup e c := by
  unfold checkGap at hok
  cases hA : alookup attrs "Gap" with
  | none => rw [hA] at hok; cases hok; rfl
  | some v =>
    cases v with
    | flag => rw [hA] at hok; simp at hok
    | str gv =>
      rw [hA] at hok
      dsimp only at hok
      by_cases hlen : (pySplitWS gv).length < 2
      · rw [if_pos hlen] at hok
        cases hok
        exact lookup_appendList_ne _ _ hc
      · rw [if_neg hlen] at hok
        cases hn : pyInt ((pySplitWS gv).getD 0 "") with
        | none => rw [hn] at hok; cases hok; exact lookup_appendList_ne _ _ hc
        | some n =>
          rw [hn] at hok
          cases hok
          split
          · exact lookup_appendList_ne _ _ hc
          · rfl

theorem checkGap_hasMsg {e : LineErrors} {attrs : List (String × AttrVal)} {e' : LineErrors}
    (hok : checkGap e attrs = .ok e') {c m : String} (h : hasMsg e c m) : hasMsg e' c m := by
  unfold checkGap at hok
  cases hA : alookup attrs "Gap" with
  | none => rw [hA] at hok; cases hok; exact h
  | some v =>
    cases v with
    | flag => rw [hA] at hok; simp at hok
    | str gv =>
      rw [hA] at hok
      dsimp only at hok
      by_cases hlen : (pySplitWS gv).length < 2
      · rw [if_pos hlen] at hok
        cases hok
        exact hasMsg_appendList _ _ h
      · rw [if_neg hlen] at hok
        cases hn : pyInt ((pySplitWS gv).getD 0 "") with
        | none => rw [hn] at hok; cases hok; exact hasMsg_appendList _ _ h
        | some n =>
          rw [hn] at hok
          cases hok
          split
          · exact hasMsg_appendList _ _ h
          · exact h

theorem checkGap_good {e : LineErrors} {attrs : List (String × AttrVal)} {e' : LineErrors}
    {gv : String} {n : Int} (hok : checkGap e attrs = .ok e')
    (hg : alookup attrs "Gap" = some (.str gv)) (hlen : ¬ (pySplitWS gv).length < 2)
    (hn : pyInt ((pySplitWS gv).getD 0 "") = some n) (hnn : ¬ n < 0) : e' = e := by
  unfold checkGap at hok
  rw [hg] at hok
  dsimp only at hok
  rw [if_neg hlen, hn] at hok
  dsimp only at hok
  rw [if_neg hnn] at hok
  cases hok
  rfl

theorem checkReplacement_lookup_ne {e : LineErrors} {attrs : List (String × AttrVal)}
    {e' : LineErrors} (hok : checkReplacement e attrs = .ok e') {c : String}
    (hc : c ≠ "replacement") : alookup e' c = alookup e c := by
  unfold checkReplacement at hok
  cases hA : alookup attrs "Replacement" with
  | none => rw [hA] at hok; cases hok; rfl
  | some v =>
    cases v with
    | flag => rw [hA] at hok; simp at hok
    | str rv =>
      rw [hA] at hok
      cases hok
      split
      · exact lookup_appendList_ne _ _ hc
      · rfl

theorem checkReplacement_hasMsg {e : LineErrors} {attrs : List (String × AttrVal)}
    {e' : LineErrors} (hok : checkReplacement e attrs = .ok e') {c m : String}
    (h : hasMsg e c m) : hasMsg e' c m := by
  unfold checkReplacement at hok
  cases hA : alookup attrs "Replacement" with
  | none => rw [hA] at hok; cases hok; exact h
  | some v =>
    cases v with
    | flag => rw [hA] at hok; simp at hok
    | str rv =>
      rw [hA] at hok
      cases hok
      split
      · exact hasMsg_appendList _ _ h
      · exact h

theorem checkSequence_lookup_ne {e : LineErrors} {attrs : List (String × AttrVal)}
    {e' : LineErrors} (hok : checkSequence e attrs = .ok e') {c : String}
    (hc : c ≠ "sequence") : alookup e' c = alookup e c := by
  unfold checkSequence at hok
  cases hA : alookup attrs "Sequence" with
  | none => rw [hA] at hok; cases hok; rfl
  | some v =>
    cases v with
    | flag => rw [hA] at hok; simp at hok
    | str sv =>
      rw [hA] at hok
      cases hok
      split
      · exact lookup_appendList_ne _ _ hc
      · rfl

theorem checkSequence_hasMsg {e : LineErrors} {attrs : List (String × AttrVal)}
    {e' : LineErrors} (hok : checkSequence e attrs = .ok e') {c m : String}
    (h : hasMsg e c m) : hasMsg e' c m := by
  unfold checkSequence at hok
  cases hA : alookup attrs "Sequence" with
  | none => rw [hA] at hok; cases hok; exact h
  | some v =>
    cases v with
    | flag => rw [hA] at hok; simp at hok
    | str sv =>
      rw [hA] at hok
      cases hok
      split
      · exact hasMsg_appendList _ _ h
      · exact h

theorem checkVariantSeq_lookup_ne {e : LineErrors} {attrs : List (String × AttrVal)}
    {e' : LineErrors} (hok : checkVariantSeq e attrs = .ok e') {c : String}
    (hc : c ≠ "variant_seq") : alookup e' c = alookup e c := by
  unfold checkVariantSeq at hok
  cases hA : alookup attrs "Variant_seq" with
  | none => rw [hA] at hok; cases hok; rfl
  | some v =>
    cases v with
    | flag => rw [hA] at hok; simp at hok
    | str sv =>
      rw [hA] at hok
      cases hok
      split
      · exact lookup_appendList_ne _ _ hc
      · rfl

theorem checkVariantSeq_hasMsg {e : LineErrors} {attrs : List (String × AttrVal)}
    {e' : LineErrors} (hok : checkVariantSeq e attrs = .ok e') {c m : String}
    (h : hasMsg e c m) : hasMsg e' c m := by
  unfold checkVariantSeq at hok
  cases hA : alookup attrs "Variant_seq" with
  | none => rw [hA] at hok; cases hok; exact h
  | some v =>
    cases v with
    | flag => rw [hA] at hok; simp at hok
    | str sv =>
      rw [hA] at hok
      cases hok
      split
      · exact hasMsg_appendList _ _ h
      · exact h

theorem checkAminoAcid_lookup_ne {e : LineErrors} {attrs : List (String × AttrVal)}
    {e' : LineErrors} (hok : checkAminoAcid e attrs = .ok e') {c : String}
    (hc : c ≠ "amino_acid") : alookup e' c = alookup e c := by
  unfold checkAminoAcid at hok
  cases hA : alookup attrs "Amino_acid" with
  | none => rw [hA] at hok; cases hok; rfl
  | some v =>
    cases v with
    | flag => rw [hA] at hok; simp at hok
    | str sv =>
      rw [hA] at hok
      cases hok
      split
      · exact lookup_appendList_ne _ _ hc
      · rfl

theorem checkAminoAcid_hasMsg {e : LineErrors} {attrs : List (String × AttrVal)}
    {e' : LineErrors} (hok : checkAminoAcid e attrs = .ok e') {c m : String}
    (h : hasMsg e c m) : hasMsg e' c m := by
  unfold checkAminoAcid at hok
  cases hA : alookup attrs "Amino_acid" with
  | none => rw [hA] at hok; cases hok; exact h
  | some v =>
    cases v with
    | flag => rw [hA] at hok; simp at hok
    | str sv =>
      rw [hA] at hok
      cases hok
      split
      · exact hasMsg_appendList _ _ h
      · exact h

theorem checkCodon_lookup_ne {e : LineErrors} {attrs : List (String × AttrVal)}
    {e' : LineErrors} (hok : checkCodon e attrs = .ok e') {c : String}
    (hc : c ≠ "codon") : alookup e' c = alookup e c := by
  unfold checkCodon at hok
  cases hA : alookup attrs "Codon" with
  | none => rw [hA] at hok; cases hok; rfl
  | some v =>
    cases v with
    | flag => rw [hA] at hok; simp at hok
    | str cv =>
      rw [hA] at hok
      cases hok
      split
      · exact lookup_appendList_ne _ _ hc
      · rfl

theorem checkCodon_hasMsg {e : LineErrors} {attrs : List (String × AttrVal)}
    {e' : LineErrors} (hok : checkCodon e attrs = .ok e') {c m : String}
    (h : hasMsg e c m) : hasMsg e' c m := by
  unfold checkCodon at hok
  cases hA : alookup attrs "Codon" with
  | none => rw [hA] at hok; cases hok; exact h
  | some v =>
    cases v with
    | flag => rw [hA] at hok; simp at hok
    | str cv =>
      rw [hA] at hok
      cases hok
      split
      · exact hasMsg_appendList _ _ h
      · exact h

/-! ## attrStage and validate_line destructuring -/

theorem attrStage_ok {st : VState} {e : LineErrors} {attrs : List (String × AttrVal)}
    {st2 : VState} {e2 : LineErrors} (hok : attrStage st e attrs = .ok (st2, e2)) :
    ∃ stA eA idv? stB eB eC eD eE eF eG eH eI eJ eK,
      checkID st e attrs = .ok (stA, eA, idv?) ∧
      checkParent stA eA attrs idv? = .ok (stB, eB) ∧
      checkAlias eB attrs = .ok eC ∧
      checkNote eC attrs = .ok eD ∧
      checkTarget stB eD attrs = .ok eE ∧
      checkDerives stB eE attrs = .ok eF ∧
      checkGap eF attrs = .ok eG ∧
      checkReplacement eG attrs = .ok eH ∧
      checkSequence eH attrs = .ok eI ∧
      checkVariantSeq eI attrs = .ok eJ ∧
      checkAminoAcid eJ attrs = .ok eK ∧
      checkCodon eK attrs = .ok e2 ∧ st2 = stB := by
  unfold attrStage at hok
  simp only [bind, Except.bind] at hok
  cases h1 : checkID st e attrs with
  | error ex => rw [h1] at hok; simp at hok
  | ok a =>
    obtain ⟨stA, eA, idv?⟩ := a
    rw [h1] at hok
    dsimp only at hok
    cases h2 : checkParent stA eA attrs idv? with
    | error ex => rw [h2] at hok; simp at hok
    | ok b =>
      obtain ⟨stB, eB⟩ := b
      rw [h2] at hok
      dsimp only at hok
      cases h3 : checkAlias eB attrs with
      | error ex => rw [h3] at hok; simp at hok
      | ok eC =>
        rw [h3] at hok
        dsimp only at hok
        cases h4 : checkNote eC attrs with
        | error ex => rw [h4] at hok; simp at hok
        | ok eD =>
          rw [h4] at hok
          dsimp only at hok
          cases h5 : checkTarget stB eD attrs with
          | error ex => rw [h5] at hok; simp at hok
          | ok eE =>
            rw [h5] at hok
            dsimp only at hok
            cases h6 : checkDerives stB eE attrs with
            | error ex => rw [h6] at hok; simp at hok
            | ok eF =>
              rw [h6] at hok
              dsimp only at hok
              cases h7 : checkGap eF attrs with
              | error ex => rw [h7] at hok; simp at hok
              | ok eG =>
                rw [h7] at hok
                dsimp only at hok
                cases h8 : checkReplacement eG attrs with
                | error ex => rw [h8] at hok; simp at hok
                | ok eH =>
                  rw [h8] at hok
                  dsimp only at hok
                  cases h9 : checkSequence eH attrs with
                  | error ex => rw [h9] at hok; simp at hok
                  | ok eI =>
                    rw [h9] at hok
                    dsimp only at hok
                    cases h10 : checkVariantSeq eI attrs with
                    | error ex => rw [h10] at hok; simp at hok
                    | ok eJ =>
                      rw [h10] at hok
                      dsimp only at hok
                      cases h11 : checkAminoAcid eJ attrs with
                      | error ex => rw [h11] at hok; simp at hok
                      | ok eK =>
                        rw [h11] at hok
                        dsimp only at hok
                        cases h12 : checkCodon eK attrs with
                        | error ex => rw [h12] at hok; simp at hok
                        | ok eL =>
                          rw [h12] at hok
                          dsimp only at hok
                          simp only [pure, Except.pure, Except.ok.injEq, Prod.mk.injEq] at hok
                          obtain ⟨hst, he⟩ := hok
                          subst hst
                          subst he
                          exact ⟨stA, eA, idv?, stB, eB, eC, eD, eE, eF, eG, eH, eI, eJ, eK,
                            rfl, h2, h3, h4, h5, h6, h7, h8, h9, h10, h11, h12, rfl⟩


theorem validate_line_not9 {sch : Schema} {st : VState} {line : String}
    (h : (lineFields line).length ≠ 9) :
    validate_line sch st line =
      .ok (st, [("error", ErrVal.str "Line must have 9 tab-separated fields")]) := by
  unfold validate_line
  rw [if_pos h]

theorem validate_line_9 {sch : Schema} {st : VState} {line : String}
    (h9 : (lineFields line).length = 9) :
    validate_line sch st line =
      attrStage (fieldStage sch st (lineFields line)).1 (fieldStage sch st (lineFields line)).2
        (parseAttrs ((lineFields line).getD 8 "")) := by
  unfold validate_line
  rw [if_neg (by rw [h9]; exact fun hh => hh rfl)]

/-! ## validate_line state lemmas -/

theorem validate_line_seen_mono {sch : Schema} {st : VState} {line : String}
    {st2 : VState} {les : LineErrors} (hok : validate_line sch st line = .ok (st2, les))
    {x : String} (hx : x ∈ st.seen_ids) : x ∈ st2.seen_ids := by
  by_cases h9 : (lineFields line).length = 9
  · rw [validate_line_9 h9] at hok
    obtain ⟨stA, eA, idv?, stB, eB, eC, eD, eE, eF, eG, eH, eI, eJ, eK,
      h1, h2, _, _, _, _, _, _, _, _, _, _, hst⟩ := attrStage_ok hok
    subst hst
    rw [(checkParent_state h2).1]
    refine checkID_seen_mono h1 ?_
    rw [fieldStage_seen]
    exact hx
  · rw [validate_line_not9 h9] at hok
    cases hok
    exact hx

theorem validate_line_seen_sub {sch : Schema} {st : VState} {line : String}
    {st2 : VState} {les : LineErrors} (hok : validate_line sch st line = .ok (st2, les))
    {x : String} (hx : x ∈ st2.seen_ids) : x ∈ st.seen_ids ∨ idOfLine line = some x := by
  by_cases h9 : (lineFields line).length = 9
  · rw [validate_line_9 h9] at hok
    obtain ⟨stA, eA, idv?, stB, eB, eC, eD, eE, eF, eG, eH, eI, eJ, eK,
      h1, h2, _, _, _, _, _, _, _, _, _, _, hst⟩ := attrStage_ok hok
    subst hst
    rw [(checkParent_state h2).1] at hx
    rcases checkID_seen_sub h1 hx with hx | hid
    · rw [fieldStage_seen] at hx
      exact .inl hx
    · right
      unfold idOfLine
      rw [if_neg (by rw [h9]; exact fun hh => hh rfl), hid]
  · rw [validate_line_not9 h9] at hok
    cases hok
    exact .inl hx

theorem validate_line_registers {sch : Schema} {st : VState} {line : String}
    {st2 : VState} {les : LineErrors} (hok : validate_line sch st line = .ok (st2, les))
    {x : String} (hid : idOfLine line = some x) : x ∈ st2.seen_ids := by
  by_cases h9 : (lineFields line).length = 9
  · rw [validate_line_9 h9] at hok
    obtain ⟨stA, eA, idv?, stB, eB, eC, eD, eE, eF, eG, eH, eI, eJ, eK,
      h1, h2, _, _, _, _, _, _, _, _, _, _, hst⟩ := attrStage_ok hok
    subst hst
    rw [(checkParent_state h2).1]
    unfold idOfLine at hid
    rw [if_neg (by rw [h9]; exact fun hh => hh rfl)] at hid
    cases hA : alookup (parseAttrs ((lineFields line).getD 8 "")) "ID" with
    | none => rw [hA] at hid; cases hid
    | some v =>
      cases v with
      | flag => rw [hA] at hid; cases hid
      | str s =>
        rw [hA] at hid
        cases hid
        exact checkID_registers h1 hA
  · unfold idOfLine at hid
    rw [if_pos h9] at hid
    cases hid

theorem contains_append_false {l : List String} {x v : String}
    (hl : l.contains x = false) (hv : v ≠ x) : (l ++ [v]).contains x = false := by
  rw [Bool.eq_false_iff]
  intro hc
  have hor : x ∈ l ∨ x = v := by simpa using hc
  rcases hor with h | h
  · rw [Bool.eq_false_iff] at hl
    exact hl (by simpa using h)
  · exact hv h.symm

/-- If a 9-field line references `X` in its `Parent` list, `X` is not yet
registered, and the line's own `ID` is not `X`, then the returned error
dictionary carries the inline `Parent ID not found` message (line 119). -/
theorem validate_line_parent_notfound {sch : Schema} {st : VState} {line : String}
    {st2 : VState} {les : LineErrors} {pv X : String}
    (hok : validate_line sch st line = .ok (st2, les))
    (h9 : (lineFields line).length = 9)
    (hp : alookup (parseAttrs ((lineFields line).getD 8 "")) "Parent" = some (.str pv))
    (hX : X ∈ pySplitChar ',' pv)
    (hs : st.seen_ids.contains X = false)
    (hnid : idOfLine line ≠ some X) :
    hasMsg les "parent" ("Parent ID not found: " ++ X) := by
  rw [validate_line_9 h9] at hok
  obtain ⟨stA, eA, idv?, stB, eB, eC, eD, eE, eF, eG, eH, eI, eJ, eK,
    h1, h2, h3, h4, h5, h6, h7, h8, h9', h10, h11, h12, hst⟩ := attrStage_ok hok
  have hsA : stA.seen_ids.contains X = false := by
    rcases checkID_cases h1 with ⟨_, hstA, _, _⟩ | ⟨idv, hid, _, _, _, hseen, _⟩
    · rw [hstA, fieldStage_seen]
      exact hs
    · have hvne : idv ≠ X := by
        intro hh
        subst hh
        refine hnid ?_
        unfold idOfLine
        rw [if_neg (by rw [h9]; exact fun hh => hh rfl), hid]
      rcases hseen with ⟨_, hsa⟩ | ⟨_, hsa⟩
      · rw [hsa, fieldStage_seen]
        exact hs
      · rw [hsa]
        rw [fieldStage_seen]
        exact contains_append_false hs hvne
  have hnsA : noStrAt eA "parent" := by
    left
    rw [checkID_lookup_ne h1 (by decide)]
    exact fieldStage_lookup sch st (lineFields line) (by decide) (by decide) (by decide)
      (by decide) (by decide) (by decide) (by decide) (by decide)
      (cat_ne_attr (by decide))
  have hB : hasMsg eB "parent" ("Parent ID not found: " ++ X) :=
    checkParent_notfound h2 hp hX hsA hnsA
  exact checkCodon_hasMsg h12 (checkAminoAcid_hasMsg h11 (checkVariantSeq_hasMsg h10
    (checkSequence_hasMsg h9' (checkReplacement_hasMsg h8 (checkGap_hasMsg h7
      (checkDerives_hasMsg h6 (checkTarget_hasMsg h5 (checkNote_hasMsg h4
        (checkAlias_hasMsg h3 hB)))))))))

/-! ## Report lemmas -/

theorem alookup_append_singleton {κ α : Type} [DecidableEq κ] (m : List (κ × α))
    (k0 k : κ) (v0 : α) :
    alookup (m ++ [(k0, v0)]) k =
      match alookup m k with
      | some v => some v
      | none => if k0 = k then some v0 else none := by
  induction m with
  | nil => rfl
  | cons hd tl ih =>
    obtain ⟨a, b⟩ := hd
    by_cases hh : a = k
    · simp only [List.cons_append, alookup, if_pos hh]
    · simp only [List.cons_append, alookup, if_neg hh]
      exact ih

theorem alookup_aupdate_cases {κ α : Type} [DecidableEq κ] (m : List (κ × α)) (k0 k : κ)
    (v0 : α) :
    alookup (aupdate m k0 v0) k = if k0 = k then some v0 else alookup m k := by
  by_cases hh : k0 = k
  · subst hh
    rw [if_pos rfl]
    exact alookup_aupdate_self m k0 v0
  · rw [if_neg hh]
    exact alookup_aupdate_ne m v0 (fun hc => hh hc.symm)

theorem reportSetLine_lookup_ne (r : Report) (n : Nat) (les : LineErrors) {k : RKey}
    (hk : k ≠ RKey.line n) : alookup (reportSetLine r n les) k = alookup r k := by
  unfold reportSetLine
  cases hl : alookup r (.line n) with
  | none =>
    rw [alookup_append_singleton]
    cases alookup r k with
    | some v => rfl
    | none => rw [if_neg (fun hc => hk hc.symm)]
  | some en =>
    cases en with
    | map m => exact alookup_aupdate_ne r _ hk
    | bare s => rfl

theorem reportAddChildParentMsg_lookup_ne (r : Report) (child pid : String) {k : RKey}
    (hk : k ≠ RKey.str child) :
    alookup (reportAddChildParentMsg r child pid) k = alookup r k := by
  unfold reportAddChildParentMsg
  cases hl : alookup r (.str child) with
  | none =>
    rw [alookup_append_singleton]
    cases alookup r k with
    | some v => rfl
    | none => rw [if_neg (fun hc => hk hc.symm)]
  | some en =>
    cases en with
    | map m => exact alookup_aupdate_ne r _ hk
    | bare s => rfl

/-! ## processLines lemmas -/

theorem processLines_append (sch : Schema) :
    ∀ (pre : List String) (st : VState) (n : Nat) (r : Report) (rest : List String),
      processLines sch st n r (pre ++ rest) =
        match processLines sch st n r pre with
        | .error ex => .error ex
        | .ok (st1, n1, r1) => processLines sch st1 n1 r1 rest := by
  intro pre
  induction pre with
  | nil => intro st n r rest; rfl
  | cons l ls ih =>
    intro st n r rest
    simp only [List.cons_append, processLines]
    by_cases hc : pyStartsHash l
    · rw [if_pos hc, if_pos hc]
      exact ih st n r rest
    · rw [if_neg hc, if_neg hc]
      cases validate_line sch st l with
      | error ex => rfl
      | ok a => exact ih a.1 (n + 1) _ rest

theorem processLines_counter (sch : Schema) :
    ∀ (ls : List String) (st : VState) (n : Nat) (r : Report) (st' : VState) (n' : Nat)
      (r' : Report), processLines sch st n r ls = .ok (st', n', r') →
      n' = n + countNonComment ls := by
  intro ls
  induction ls with
  | nil =>
    intro st n r st' n' r' h
    cases h
    simp [countNonComment]
  | cons l ls ih =>
    intro st n r st' n' r' h
    rw [processLines] at h
    by_cases hc : pyStartsHash l
    · rw [if_pos hc] at h
      rw [ih _ _ _ _ _ _ h]
      simp [countNonComment, List.filter, hc]
    · rw [if_neg hc] at h
      cases hv : validate_line sch st l with
      | error ex => rw [hv] at h; cases h
      | ok a =>
        rw [hv] at h
        have := ih _ _ _ _ _ _ h
        rw [this]
        simp only [countNonComment, List.filter, hc]
        simp [Nat.add_comm, Nat.add_assoc, Nat.add_left_comm]

theorem processLines_lookup_lt (sch : Schema) :
    ∀ (ls : List String) (st : VState) (n : Nat) (r : Report) (st' : VState) (n' : Nat)
      (r' : Report), processLines sch st n r ls = .ok (st', n', r') →
      ∀ k, k < n → alookup r' (RKey.line k) = alookup r (RKey.line k) := by
  intro ls
  induction ls with
  | nil =>
    intro st n r st' n' r' h k hk
    cases h
    rfl
  | cons l ls ih =>
    intro st n r st' n' r' h k hk
    rw [processLines] at h
    by_cases hc : pyStartsHash l
    · rw [if_pos hc] at h
      exact ih _ _ _ _ _ _ h k hk
    · rw [if_neg hc] at h
      cases hv : validate_line sch st l with
      | error ex => rw [hv] at h; cases h
      | ok a =>
        rw [hv] at h
        rw [ih _ _ _ _ _ _ h k (Nat.lt_succ_of_lt hk)]
        split
        · rfl
        · exact reportSetLine_lookup_ne r n a.2 (by
            intro hh
            cases hh
            exact Nat.lt_irrefl _ hk)

theorem processLines_nostr (sch : Schema) :
    ∀ (ls : List String) (st : VState) (n : Nat) (r : Report) (st' : VState) (n' : Nat)
      (r' : Report), processLines sch st n r ls = .ok (st', n', r') →
      (∀ s, alookup r (RKey.str s) = none) → ∀ s, alookup r' (RKey.str s) = none := by
  intro ls
  induction ls with
  | nil =>
    intro st n r st' n' r' h hr s
    cases h
    exact hr s
  | cons l ls ih =>
    intro st n r st' n' r' h hr s
    rw [processLines] at h
    by_cases hc : pyStartsHash l
    · rw [if_pos hc] at h
      exact ih _ _ _ _ _ _ h hr s
    · rw [if_neg hc] at h
      cases hv : validate_line sch st l with
      | error ex => rw [hv] at h; cases h
      | ok a =>
        rw [hv] at h
        refine ih _ _ _ _ _ _ h ?_ s
        intro s'
        split
        · exact hr s'
        · rw [reportSetLine_lookup_ne r n a.2 (by intro hh; cases hh)]
          exact hr s'

theorem processLines_seen_mono (sch : Schema) :
    ∀ (ls : List String) (st : VState) (n : Nat) (r : Report) (st' : VState) (n' : Nat)
      (r' : Report), processLines sch st n r ls = .ok (st', n', r') →
      ∀ x, x ∈ st.seen_ids → x ∈ st'.seen_ids := by
  intro ls
  induction ls with
  | nil =>
    intro st n r st' n' r' h x hx
    cases h
    exact hx
  | cons l ls ih =>
    intro st n r st' n' r' h x hx
    rw [processLines] at h
    by_cases hc : pyStartsHash l
    · rw [if_pos hc] at h
      exact ih _ _ _ _ _ _ h x hx
    · rw [if_neg hc] at h
      cases hv : validate_line sch st l with
      | error ex => rw [hv] at h; cases h
      | ok a =>
        rw [hv] at h
        exact ih _ _ _ _ _ _ h x (validate_line_seen_mono (by rw [hv]) hx)

theorem processLines_seen_sub (sch : Schema) :
    ∀ (ls : List String) (st : VState) (n : Nat) (r : Report) (st' : VState) (n' : Nat)
      (r' : Report), processLines sch st n r ls = .ok (st', n', r') →
      ∀ x, x ∈ st'.seen_ids → x ∈ st.seen_ids ∨ ∃ l ∈ ls, idOfLine l = some x := by
  intro ls
  induction ls with
  | nil =>
    intro st n r st' n' r' h x hx
    cases h
    exact .inl hx
  | cons l ls ih =>
    intro st n r st' n' r' h x hx
    rw [processLines] at h
    by_cases hc : pyStartsHash l
    · rw [if_pos hc] at h
      rcases ih _ _ _ _ _ _ h x hx with hx | ⟨l', hl', hid⟩
      · exact .inl hx
      · exact .inr ⟨l', List.mem_cons_of_mem _ hl', hid⟩
    · rw [if_neg hc] at h
      cases hv : validate_line sch st l with
      | error ex => rw [hv] at h; cases h
      | ok a =>
        rw [hv] at h
        rcases ih _ _ _ _ _ _ h x hx with hx | ⟨l', hl', hid⟩
        · rcases @validate_line_seen_sub sch st l a.1 a.2 (by rw [hv]) x hx with hx | hid
          · exact .inl hx
          · exact .inr ⟨l, List.mem_cons_self _ _, hid⟩
        · exact .inr ⟨l', List.mem_cons_of_mem _ hl', hid⟩

/-! ## End-of-file pass lemmas -/

theorem parent_msg_inj {pid X : String}
    (h : "Parent ID not found: " ++ pid = "Parent ID not found: " ++ X) : pid = X := by
  have hd := congrArg String.data h
  simp only [String.data_append] at hd
  exact String.ext (List.append_cancel_left hd)

theorem childFold_lookup_ne (pid : String) {k : RKey} (hk : ∀ s, k ≠ RKey.str s) :
    ∀ (children : List String) (r : Report),
      alookup (children.foldl (fun r c => reportAddChildParentMsg r c pid) r) k =
        alookup r k := by
  intro children
  induction children with
  | nil => intro r; rfl
  | cons c cs ih =>
    intro r
    rw [List.foldl_cons, ih, reportAddChildParentMsg_lookup_ne _ _ _ (hk c)]

theorem eofParentPass_lookup_line (st : VState) (r : Report) (n : Nat) :
    alookup (eofParentPass st r) (RKey.line n) = alookup r (RKey.line n) := by
  unfold eofParentPass
  refine ?_
  induction st.parents generalizing r with
  | nil => rfl
  | cons pc ps ih =>
    rw [List.foldl_cons, ih]
    split
    · exact childFold_lookup_ne pc.1 (fun s h => by cases h) pc.2 r
    · rfl

theorem eofTypePass_lookup_line (sch : Schema) (st : VState) (r : Report) (n : Nat) :
    alookup (eofTypePass sch st r) (RKey.line n) = alookup r (RKey.line n) := by
  unfold eofTypePass
  split
  · exact alookup_aupdate_ne r _ (by intro h; cases h)
  · rfl

theorem reportAddChildParentMsg_Q {r : Report} {X : String} (child : String) {pid : String}
    (hpid : pid ≠ X) (hq : noChildParentMsg r X) :
    noChildParentMsg (reportAddChildParentMsg r child pid) X := by
  intro s m l hlook hpar hmem
  by_cases hs : s = child
  · subst hs
    unfold reportAddChildParentMsg at hlook
    cases hl : alookup r (RKey.str s) with
    | none =>
      rw [hl] at hlook
      rw [alookup_append_singleton, hl] at hlook
      rw [if_pos rfl] at hlook
      cases hlook
      unfold alookup at hpar
      rw [if_pos rfl] at hpar
      cases hpar
      rcases List.mem_singleton.mp hmem with h
      exact hpid (parent_msg_inj h).symm
    | some en =>
      rw [hl] at hlook
      cases en with
      | map m0 =>
        rw [alookup_aupdate_self] at hlook
        cases hlook
        unfold appendList at hpar
        cases hp0 : alookup m0 "parent" with
        | none =>
          rw [hp0] at hpar
          rw [alookup_aupdate_self] at hpar
          cases hpar
          rcases List.mem_singleton.mp hmem with h
          exact hpid (parent_msg_inj h).symm
        | some ev =>
          cases ev with
          | str s0 =>
            rw [hp0] at hpar
            rw [hp0] at hpar
            cases hpar
          | list l0 =>
            rw [hp0] at hpar
            rw [alookup_aupdate_self] at hpar
            cases hpar
            rcases List.mem_append.mp hmem with h | h
            · exact hq s m0 l0 hl hp0 h
            · exact hpid (parent_msg_inj (List.mem_singleton.mp h)).symm
      | bare s0 =>
        cases hlook' : alookup r (RKey.str s) with
        | none => rw [hlook'] at hl; cases hl
        | some en' =>
          rw [hl] at hlook'
          cases hlook'
          rw [hl] at hlook
          cases hlook
  · rw [reportAddChildParentMsg_lookup_ne r child pid (fun hh => hs (RKey.str.injEq s child ▸ hh ▸ rfl))] at hlook
    exact hq s m l hlook hpar hmem

theorem childFold_Q {X pid : String} (hpid : pid ≠ X) :
    ∀ (children : List String) (r : Report), noChildParentMsg r X →
      noChildParentMsg (children.foldl (fun r c => reportAddChildParentMsg r c pid) r) X := by
  intro children
  induction children with
  | nil => intro r hq; exact hq
  | cons c cs ih =>
    intro r hq
    rw [List.foldl_cons]
    exact ih _ (reportAddChildParentMsg_Q c hpid hq)

theorem eofParentPass_Q {st : VState} {X : String} (hX : X ∈ st.seen_ids) {r : Report}
    (hq : noChildParentMsg r X) : noChildParentMsg (eofParentPass st r) X := by
  unfold eofParentPass
  induction st.parents generalizing r with
  | nil => exact hq
  | cons pc ps ih =>
    rw [List.foldl_cons]
    refine ih ?_
    by_cases hc : st.seen_ids.contains pc.1
    · rw [hc]
      simp only [Bool.not_true, Bool.false_eq_true, if_false]
      exact hq
    · rw [Bool.not_eq_true] at hc
      rw [hc]
      simp only [Bool.not_false, if_true]
      refine childFold_Q ?_ pc.2 r hq
      intro hh
      subst hh
      rw [Bool.eq_false_iff] at hc
      exact hc (by simpa using hX)

theorem eofTypePass_Q (sch : Schema) (st : VState) {r : Report} {X : String}
    (hq : noChildParentMsg r X) : noChildParentMsg (eofTypePass sch st r) X := by
  intro s m l hlook hpar hmem
  unfold eofTypePass at hlook
  by_cases hcond : st.feature_types.length ≠ sch.permissible.length
  · rw [if_pos hcond] at hlook
    rw [alookup_aupdate_cases] at hlook
    by_cases hk : RKey.str "feature_type" = RKey.str s
    · rw [if_pos hk] at hlook
      cases hlook
    · rw [if_neg hk] at hlook
      exact hq s m l hlook hpar hmem
  · rw [if_neg hcond] at hlook
    exact hq s m l hlook hpar hmem

/-! ## Shape lemmas -/

theorem reportSetLine_maps {r : Report} (n : Nat) (les : LineErrors) (h : mapsOnly r) :
    mapsOnly (reportSetLine r n les) := by
  intro k en hlook
  unfold reportSetLine at hlook
  cases hl : alookup r (RKey.line n) with
  | none =>
    rw [hl] at hlook
    rw [alookup_append_singleton] at hlook
    cases hr : alookup r k with
    | some v =>
      rw [hr] at hlook
      cases hlook
      exact h k _ hr
    | none =>
      rw [hr] at hlook
      by_cases hk : RKey.line n = k
      · rw [if_pos hk] at hlook
        cases hlook
        exact ⟨les, rfl⟩
      · rw [if_neg hk] at hlook
        cases hlook
  | some en0 =>
    rw [hl] at hlook
    cases en0 with
    | map m0 =>
      rw [alookup_aupdate_cases] at hlook
      by_cases hk : RKey.line n = k
      · rw [if_pos hk] at hlook
        cases hlook
        exact ⟨_, rfl⟩
      · rw [if_neg hk] at hlook
        exact h k _ hlook
    | bare s0 => exact h k _ hlook

theorem reportAddChildParentMsg_maps {r : Report} (child pid : String) (h : mapsOnly r) :
    mapsOnly (reportAddChildParentMsg r child pid) := by
  intro k en hlook
  unfold reportAddChildParentMsg at hlook
  cases hl : alookup r (RKey.str child) with
  | none =>
    rw [hl] at hlook
    rw [alookup_append_singleton] at hlook
    cases hr : alookup r k with
    | some v =>
      rw [hr] at hlook
      cases hlook
      exact h k _ hr
    | none =>
      rw [hr] at hlook
      by_cases hk : RKey.str child = k
      · rw [if_pos hk] at hlook
        cases hlook
        exact ⟨_, rfl⟩
      · rw [if_neg hk] at hlook
        cases hlook
  | some en0 =>
    rw [hl] at hlook
    cases en0 with
    | map m0 =>
      rw [alookup_aupdate_cases] at hlook
      by_cases hk : RKey.str child = k
      · rw [if_pos hk] at hlook
        cases hlook
        exact ⟨_, rfl⟩
      · rw [if_neg hk] at hlook
        exact h k _ hlook
    | bare s0 => exact h k _ hlook

theorem processLines_maps (sch : Schema) :
    ∀ (ls : List String) (st : VState) (n : Nat) (r : Report) (st' : VState) (n' : Nat)
      (r' : Report), processLines sch st n r ls = .ok (st', n', r') →
      mapsOnly r → mapsOnly r' := by
  intro ls
  induction ls with
  | nil =>
    intro st n r st' n' r' h hm
    cases h
    exact hm
  | cons l ls ih =>
    intro st n r st' n' r' h hm
    rw [processLines] at h
    by_cases hc : pyStartsHash l
    · rw [if_pos hc] at h
      exact ih _ _ _ _ _ _ h hm
    · rw [if_neg hc] at h
      cases hv : validate_line sch st l with
      | error ex => rw [hv] at h; cases h
      | ok a =>
        rw [hv] at h
        refine ih _ _ _ _ _ _ h ?_
        split
        · exact hm
        · exact reportSetLine_maps n a.2 hm

theorem childFold_maps (pid : String) :
    ∀ (children : List String) (r : Report), mapsOnly r →
      mapsOnly (children.foldl (fun r c => reportAddChildParentMsg r c pid) r) := by
  intro children
  induction children with
  | nil => intro r h; exact h
  | cons c cs ih =>
    intro r h
    rw [List.foldl_cons]
    exact ih _ (reportAddChildParentMsg_maps c pid h)

theorem eofParentPass_maps (st : VState) {r : Report} (h : mapsOnly r) :
    mapsOnly (eofParentPass st r) := by
  unfold eofParentPass
  induction st.parents generalizing r with
  | nil => exact h
  | cons pc ps ih =>
    rw [List.foldl_cons]
    refine ih ?_
    split
    · exact childFold_maps pc.1 pc.2 r h
    · exact h

theorem eofTypePass_shape (sch : Schema) (st : VState) {r : Report} (h : mapsOnly r) :
    reportShape (eofTypePass sch st r) := by
  intro k en hlook
  unfold eofTypePass at hlook
  by_cases hcond : st.feature_types.length ≠ sch.permissible.length
  · rw [if_pos hcond] at hlook
    rw [alookup_aupdate_cases] at hlook
    by_cases hk : RKey.str "feature_type" = k
    · rw [if_pos hk] at hlook
      cases hlook
      exact .inr ⟨hk.symm, _, rfl⟩
    · rw [if_neg hk] at hlook
      exact .inl (h k _ hlook)
  · rw [if_neg hcond] at hlook
    exact .inl (h k _ hlook)

/-! ## Precise checkID and startEndErr lemmas -/

theorem checkID_first {st : VState} {e : LineErrors} {attrs : List (String × AttrVal)}
    {st' : VState} {e' : LineErrors} {idv? : Option String} {v : String}
    (hok : checkID st e attrs = .ok (st', e', idv?))
    (hid : alookup attrs "ID" = some (.str v)) (hpat : idPattern v = true)
    (hseen : st.seen_ids.contains v = false) : e' = e := by
  unfold checkID at hok
  rw [hid] at hok
  dsimp only at hok
  rw [hseen] at hok
  simp only [Bool.false_eq_true, if_false] at hok
  rw [hpat] at hok
  simp only [Bool.not_true, Bool.false_eq_true, if_false] at hok
  cases hok
  rfl

theorem checkID_dup {st : VState} {e : LineErrors} {attrs : List (String × AttrVal)}
    {st' : VState} {e' : LineErrors} {idv? : Option String} {v : String}
    (hok : checkID st e attrs = .ok (st', e', idv?))
    (hid : alookup attrs "ID" = some (.str v)) (hpat : idPattern v = true)
    (hseen : st.seen_ids.contains v = true) :
    e' = assign e "id" ("Duplicate ID: " ++ v) := by
  unfold checkID at hok
  rw [hid] at hok
  dsimp only at hok
  rw [hseen] at hok
  simp only [if_true] at hok
  rw [hpat] at hok
  simp only [Bool.not_true, Bool.false_eq_true, if_false] at hok
  cases hok
  rfl

theorem startEndErr_invalid {e : LineErrors} {s t : String}
    (hfail : pyInt s = none ∨ pyInt t = none) :
    alookup (startEndErr e s t) "start" = some (.str ("Invalid start position: " ++ s)) ∧
    alookup (startEndErr e s t) "end" = some (.str ("Invalid end position: " ++ t)) := by
  unfold startEndErr
  cases hs : pyInt s with
  | none =>
    constructor
    · rw [lookup_assign_ne _ _ (by decide)]
      exact lookup_assign_self _ _ _
    · exact lookup_assign_self _ _ _
  | some a =>
    cases ht : pyInt t with
    | none =>
      constructor
      · rw [lookup_assign_ne _ _ (by decide)]
        exact lookup_assign_self _ _ _
      · exact lookup_assign_self _ _ _
    | some b =>
      rcases hfail with h | h
      · rw [hs] at h; cases h
      · rw [ht] at h; cases h

theorem startEndErr_low {e : LineErrors} {s t : String} {a b : Int}
    (ha : pyInt s = some a) (hb : pyInt t = some b) (hlt : a < 1) :
    alookup (startEndErr e s t) "start" =
      some (.str ("Start position must be >= 1: " ++ s)) := by
  unfold startEndErr
  rw [ha, hb]
  dsimp only
  rw [if_pos hlt]
  by_cases h2 : b < a
  · rw [if_pos h2, lookup_assign_ne _ _ (by decide)]
    exact lookup_assign_self _ _ _
  · rw [if_neg h2]
    exact lookup_assign_self _ _ _

theorem startEndErr_endlt {e : LineErrors} {s t : String} {a b : Int}
    (ha : pyInt s = some a) (hb : pyInt t = some b) (hlt : b < a) :
    alookup (startEndErr e s t) "end" =
      some (.str ("End position must be >= start position: " ++ t)) := by
  unfold startEndErr
  rw [ha, hb]
  dsimp only
  by_cases h1 : a < 1
  · rw [if_pos h1, if_pos hlt]
    exact lookup_assign_self _ _ _
  · rw [if_neg h1, if_pos hlt]
    exact lookup_assign_self _ _ _

/-! ## processLines entry lemmas -/

theorem processLines_keys_none (sch : Schema) :
    ∀ (ls : List String) (st : VState) (n : Nat) (r : Report) (st' : VState) (n' : Nat)
      (r' : Report), processLines sch st n r ls = .ok (st', n', r') →
      (∀ k, n ≤ k → alookup r (RKey.line k) = none) →
      ∀ k, n' ≤ k → alookup r' (RKey.line k) = none := by
  intro ls
  induction ls with
  | nil =>
    intro st n r st' n' r' h hr k hk
    cases h
    exact hr k hk
  | cons l ls ih =>
    intro st n r st' n' r' h hr k hk
    rw [processLines] at h
    by_cases hc : pyStartsHash l
    · rw [if_pos hc] at h
      exact ih _ _ _ _ _ _ h hr k hk
    · rw [if_neg hc] at h
      cases hv : validate_line sch st l with
      | error ex => rw [hv] at h; cases h
      | ok a =>
        rw [hv] at h
        refine ih _ _ _ _ _ _ h ?_ k hk
        intro k' hk'
        split
        · exact hr k' (Nat.le_of_succ_le hk')
        · rw [reportSetLine_lookup_ne r n a.2 (by
            intro hh
            cases hh
            exact Nat.not_succ_le_self _ hk')]
          exact hr k' (Nat.le_of_succ_le hk')

theorem processLines_line_entry {sch : Schema} {pre : List String} {l : String}
    {post : List String} {st1 : VState} {n1 : Nat} {r1 : Report} {st2 : VState}
    {les : LineErrors} {stF : VState} {nF : Nat} {rF : Report}
    (hall : processLines sch ⟨[], [], []⟩ 1 [] (pre ++ l :: post) = .ok (stF, nF, rF))
    (hpre : processLines sch ⟨[], [], []⟩ 1 [] pre = .ok (st1, n1, r1))
    (hc : pyStartsHash l = false)
    (hl : validate_line sch st1 l = .ok (st2, les))
    (hles : les ≠ []) :
    alookup rF (RKey.line n1) = some (REntry.map les) := by
  rw [processLines_append] at hall
  rw [hpre] at hall
  dsimp only at hall
  rw [processLines] at hall
  rw [hc] at hall
  simp only [Bool.false_eq_true, if_false] at hall
  rw [hl] at hall
  dsimp only at hall
  have hle : les.isEmpty = false := by
    cases les with
    | nil => exact absurd rfl hles
    | cons hd tl => rfl
  rw [hle] at hall
  simp only [Bool.false_eq_true, if_false] at hall
  have hnone : alookup r1 (RKey.line n1) = none :=
    processLines_keys_none sch pre _ _ _ _ _ _ hpre (fun k _ => rfl) n1 (Nat.le_refl n1)
  have hset : alookup (reportSetLine r1 n1 les) (RKey.line n1) = some (REntry.map les) := by
    unfold reportSetLine
    rw [hnone, alookup_append_singleton, hnone]
    rw [if_pos rfl]
  rw [processLines_lookup_lt sch post _ _ _ _ _ _ hall n1 (Nat.lt_succ_self n1), hset]

theorem validate_file_destruct {sch : Schema} {lines : List String} {rep : Report}
    (hok : validate_file sch lines = .ok rep) :
    ∃ stF nF rF, processLines sch ⟨[], [], []⟩ 1 [] lines = .ok (stF, nF, rF) ∧
      rep = eofTypePass sch stF (eofParentPass stF rF) := by
  unfold validate_file at hok
  cases h : processLines sch ⟨[], [], []⟩ 1 [] lines with
  | error ex => rw [h] at hok; cases hok
  | ok a =>
    obtain ⟨stF, nF, rF⟩ := a
    rw [h] at hok
    cases hok
    exact ⟨stF, nF, rF, rfl, rfl⟩

/-! ## Claim theorems -/

/-- C1: the claim says every 9-field line with well-formed attributes and
schema-conformant values — including a line carrying both `ID` and `Parent`
referencing an already-registered parent — yields an empty error mapping.
The code contradicts it: line 120 records the `parent → id` edge before the
circular-reference check of lines 123–127 runs, so that check fires on every
line that has both `ID` and `Parent`.  Here the fully valid line
`ID=mrna1;Parent=gene1`, validated with `gene1` already registered and a
schema accepting every value, returns a non-empty error mapping containing a
spurious circular-reference error. -/
theorem C1_valid_child_line_gets_circular_error :
    validate_line (allAccept ["gene", "mRNA"]) ⟨["gene1"], [], ["gene"]⟩ lineMRNA =
      .ok (⟨["gene1", "mrna1"], [("gene1", ["mrna1"])], ["gene", "mRNA"]⟩,
        [("parent", ErrVal.list ["Circular reference detected for ID: mrna1"])]) := rfl

/-- C2: the claim says `validate_line` is total and never raises, in
particular on a line whose attributes contain `Parent` but no `ID`.  The code
contradicts it: on such a line, line 120 reads the never-assigned local
`id_value` and raises `UnboundLocalError`, which propagates out of
`validate_line` and aborts `validate_file`. -/
theorem C2_parent_without_id_raises :
    validate_line (allAccept ["gene"]) ⟨[], [], []⟩ lineParentNoID =
      .error .unboundLocalError := rfl

/-- C3 counterexample: for the forward-reference file (the `Parent=gene1`
line precedes the `ID=gene1` line) the final report still contains the
per-line `Parent ID not found: gene1` error that line 119 recorded when the
referencing line was validated; the end-of-file pass (lines 239–243) only
adds errors and never removes this one.  This falsifies the claim that the
report contains no unresolved-Parent error for a forward reference that is
later resolved. -/
theorem C3_counterexample :
    Except.map (fun rep => alookup rep (RKey.line 1))
        (validate_file (allAccept ["gene", "mRNA"]) [lineMRNA, lineGene]) =
      .ok (some (REntry.map [("parent",
        ErrVal.list ["Parent ID not found: gene1",
          "Circular reference detected for ID: mrna1"])])) := rfl

/-- C5 counterexample: two lines both declare `ID=a b` (which violates the ID
character pattern).  On the second line the duplicate-ID error written at
line 104 is overwritten by the invalid-characters error at line 112 (both use
the key `'id'`), so the second occurrence's error mapping carries no
duplicate-ID error, falsifying the claim as stated. -/
theorem C5_counterexample :
    Except.map (fun rep => alookup rep (RKey.line 2))
        (validate_file (allAccept ["gene"]) [lineDupBad, lineDupBad]) =
      .ok (some (REntry.map [("id", ErrVal.str "Invalid characters in ID: a b")])) := rfl

/-- C7 counterexample: the `Gap` value `5` has a first whitespace-separated
token that parses as the non-negative integer `5`, yet `validate_line`
reports a gap error, because line 172 requires at least two tokens.  This
falsifies the claim's "no minimum token count". -/
theorem C7_counterexample :
    validate_line (allAccept ["gene"]) ⟨[], [], []⟩ lineGap1 =
      .ok (⟨["a"], [], ["gene"]⟩, [("gap", ErrVal.list ["Invalid Gap attribute: 5"])]) := rfl

/-- C9 counterexample: a line with the wrong field count produces the entry
`{'error': 'Line must have 9 tab-separated fields'}`, whose value is a bare
string rather than an ordered list of messages, falsifying the claim that
every entry maps categories to lists. -/
theorem C9_counterexample :
    validate_file (allAccept []) [lineShort] =
      .ok [(RKey.line 1, REntry.map [("error", ErrVal.str "Line must have 9 tab-separated fields")])] ∧
    ¬ allListValued
        [(RKey.line 1, REntry.map [("error", ErrVal.str "Line must have 9 tab-separated fields")])] := by
  refine ⟨rfl, fun h => ?_⟩
  obtain ⟨m, hm, hv⟩ := h (RKey.line 1) _ rfl
  cases hm
  obtain ⟨l, hl⟩ := hv "error" _ rfl
  cases hl

/-- C10: in the report returned by `validate_file`, a non-comment line's
errors appear under the key `1 + (number of non-comment lines preceding it)`
— the position `pre.length + 1` in the file plays no role, because comment
lines are skipped without advancing the counter (lines 228–237). -/
theorem C10_line_number_key {sch : Schema} {pre : List String} {l : String}
    {post : List String} {st1 : VState} {n1 : Nat} {r1 : Report} {st2 : VState}
    {les : LineErrors} {rep : Report}
    (hok : validate_file sch (pre ++ l :: post) = .ok rep)
    (hc : pyStartsHash l = false)
    (hpre : processLines sch ⟨[], [], []⟩ 1 [] pre = .ok (st1, n1, r1))
    (hl : validate_line sch st1 l = .ok (st2, les))
    (hles : les ≠ []) :
    alookup rep (RKey.line (1 + countNonComment pre)) = some (REntry.map les) := by
  obtain ⟨stF, nF, rF, hall, hrep⟩ := validate_file_destruct hok
  have hn1 : n1 = 1 + countNonComment pre := processLines_counter sch pre _ _ _ _ _ _ hpre
  subst hrep
  rw [← hn1, eofTypePass_lookup_line, eofParentPass_lookup_line]
  exact processLines_line_entry hall hpre hc hl hles

/-- C10 witness: in the 3-line file `["# c", lineGene, lineShort]` the
malformed third physical line is keyed by `2 = 1 + 1` — one non-comment line
precedes it — not by its physical position 3. -/
theorem C10_witness :
    alookup
      [(RKey.line 2, REntry.map [("error", ErrVal.str "Line must have 9 tab-separated fields")]),
       (RKey.str "feature_type", REntry.bare "Missing feature types: mRNA")]
      (RKey.line (1 + countNonComment ["# c", lineGene])) =
      some (REntry.map [("error", ErrVal.str "Line must have 9 tab-separated fields")]) :=
  @C10_line_number_key (allAccept ["gene", "mRNA"]) ["# c", lineGene] lineShort []
    ⟨["gene1"], [], ["gene"]⟩ 2 [] ⟨["gene1"], [], ["gene"]⟩
    [("error", ErrVal.str "Line must have 9 tab-separated fields")]
    [(RKey.line 2, REntry.map [("error", ErrVal.str "Line must have 9 tab-separated fields")]),
     (RKey.str "feature_type", REntry.bare "Missing feature types: mRNA")]
    rfl rfl rfl rfl (fun h => List.noConfusion h)

/-- C4: a `Parent=X` reference on a 9-field non-comment line of a file in
which no line declares `ID=X` always leaves an unresolved-Parent finding
(`Parent ID not found: X`) in the report `validate_file` returns, whatever
the order of the lines: `X` can never enter the ID registry, so the inline
check of line 119 fires when the referencing line is validated, and that
per-line entry survives to the final report. -/
theorem C4_unresolved_parent_reported {sch : Schema} {lines : List String} {rep : Report}
    {l : String} {pv X : String}
    (hok : validate_file sch lines = .ok rep)
    (hmem : l ∈ lines)
    (hc : pyStartsHash l = false)
    (h9 : (lineFields l).length = 9)
    (hp : alookup (parseAttrs ((lineFields l).getD 8 "")) "Parent" = some (.str pv))
    (hX : X ∈ pySplitChar ',' pv)
    (hnoid : ∀ l' ∈ lines, idOfLine l' ≠ some X) :
    reportHasParentMsg rep ("Parent ID not found: " ++ X) := by
  obtain ⟨pre, post, rfl⟩ := List.append_of_mem hmem
  obtain ⟨stF, nF, rF, hall, hrep⟩ := validate_file_destruct hok
  have hall' := hall
  rw [processLines_append] at hall'
  cases hpre : processLines sch ⟨[], [], []⟩ 1 [] pre with
  | error ex => rw [hpre] at hall'; simp at hall'
  | ok a =>
    obtain ⟨st1, n1, r1⟩ := a
    rw [hpre] at hall'
    dsimp only at hall'
    rw [processLines] at hall'
    rw [hc] at hall'
    simp only [Bool.false_eq_true, if_false] at hall'
    cases hl : validate_line sch st1 l with
    | error ex => rw [hl] at hall'; simp at hall'
    | ok b =>
      obtain ⟨st2, les⟩ := b
      rw [hl] at hall'
      dsimp only at hall'
      have hXpre : X ∉ st1.seen_ids := by
        intro hmemX
        rcases processLines_seen_sub sch pre _ _ _ _ _ _ hpre X hmemX with hx | ⟨l', hl', hid⟩
        · exact List.not_mem_nil X hx
        · exact hnoid l' (List.mem_append.mpr (.inl hl')) hid
      have hXc : st1.seen_ids.contains X = false := by
        rw [Bool.eq_false_iff]
        intro hcc
        exact hXpre (by simpa using hcc)
      have hmsg : hasMsg les "parent" ("Parent ID not found: " ++ X) :=
        validate_line_parent_notfound hl h9 hp hX hXc
          (hnoid l (List.mem_append.mpr (.inr (List.mem_cons_self _ _))))
      have hles : les ≠ [] := by
        obtain ⟨ll, hll, _⟩ := hmsg
        intro hnil
        rw [hnil] at hll
        cases hll
      have hentry := processLines_line_entry hall hpre hc hl hles
      subst hrep
      obtain ⟨ll, hll, hmm⟩ := hmsg
      refine ⟨RKey.line n1, les, ll, ?_, hll, hmm⟩
      rw [eofTypePass_lookup_line, eofParentPass_lookup_line]
      exact hentry

/-- C4 witness: the one-line file whose single line declares `ID=a;Parent=X`
(and `X` is never an ID) yields a report carrying `Parent ID not found: X`. -/
theorem C4_witness :
    reportHasParentMsg
      [(RKey.line 1, REntry.map [("parent",
          ErrVal.list ["Parent ID not found: X", "Circular reference detected for ID: a"])]),
       (RKey.str "a", REntry.map [("parent", ErrVal.list ["Parent ID not found: X"])])]
      ("Parent ID not found: " ++ "X") :=
  @C4_unresolved_parent_reported (allAccept ["gene"]) [lineOrphan]
    [(RKey.line 1, REntry.map [("parent",
        ErrVal.list ["Parent ID not found: X", "Circular reference detected for ID: a"])]),
     (RKey.str "a", REntry.map [("parent", ErrVal.list ["Parent ID not found: X"])])]
    lineOrphan "X" "X" rfl (List.mem_singleton.mpr rfl) rfl rfl rfl
    (by rw [show pySplitChar ',' "X" = ["X"] from rfl]; exact List.mem_singleton.mpr rfl)
    (by
      intro l' hl' h
      rw [List.mem_singleton.mp hl'] at h
      rw [show idOfLine lineOrphan = some "a" from rfl] at h
      exact absurd (Option.some.inj h) (by decide))

/-- C3 amended: if some non-comment line of the file declares `ID=X`, then the
end-of-file reconciliation adds no unresolved-Parent finding for `X` — the
report contains no child-keyed (string-keyed) entry carrying
`Parent ID not found: X`.  (The claim as frozen also asserted that the
per-line `Parent ID not found` error recorded when a forward-referencing line
was validated is gone from the final report; the counterexample shows that
error remains under the referencing line's number.) -/
theorem C3_reconciliation_adds_nothing {sch : Schema} {lines : List String} {rep : Report}
    {lX : String} {X : String}
    (hok : validate_file sch lines = .ok rep)
    (hmem : lX ∈ lines)
    (hc : pyStartsHash lX = false)
    (hid : idOfLine lX = some X) :
    noChildParentMsg rep X := by
  obtain ⟨pre, post, rfl⟩ := List.append_of_mem hmem
  obtain ⟨stF, nF, rF, hall, hrep⟩ := validate_file_destruct hok
  have hall' := hall
  rw [processLines_append] at hall'
  cases hpre : processLines sch ⟨[], [], []⟩ 1 [] pre with
  | error ex => rw [hpre] at hall'; simp at hall'
  | ok a =>
    obtain ⟨st1, n1, r1⟩ := a
    rw [hpre] at hall'
    dsimp only at hall'
    rw [processLines] at hall'
    rw [hc] at hall'
    simp only [Bool.false_eq_true, if_false] at hall'
    cases hl : validate_line sch st1 lX with
    | error ex => rw [hl] at hall'; simp at hall'
    | ok b =>
      obtain ⟨st2, les⟩ := b
      rw [hl] at hall'
      dsimp only at hall'
      have hX2 : X ∈ st2.seen_ids := validate_line_registers hl hid
      have hXF : X ∈ stF.seen_ids :=
        processLines_seen_mono sch post _ _ _ _ _ _ hall' X hX2
      have hq0 : noChildParentMsg rF X := by
        intro s m ll hlook hpar hmm
        have hnone : alookup rF (RKey.str s) = none :=
          processLines_nostr sch (pre ++ lX :: post) _ _ _ _ _ _ hall (fun _ => rfl) s
        rw [hnone] at hlook
        cases hlook
      subst hrep
      exact eofTypePass_Q sch stF (eofParentPass_Q hXF hq0)

/-- C3 witness: for the forward-reference file (`Parent=gene1` on line 1,
`ID=gene1` on line 2) the reconciliation pass adds no child-keyed finding for
`gene1` — the only finding in the report is the per-line one. -/
theorem C3_witness :
    noChildParentMsg
      [(RKey.line 1, REntry.map [("parent",
        ErrVal.list ["Parent ID not found: gene1", "Circular reference detected for ID: mrna1"])])]
      "gene1" :=
  @C3_reconciliation_adds_nothing (allAccept ["gene", "mRNA"]) [lineMRNA, lineGene]
    [(RKey.line 1, REntry.map [("parent",
      ErrVal.list ["Parent ID not found: gene1", "Circular reference detected for ID: mrna1"])])]
    lineGene "gene1" rfl
    (List.mem_cons_of_mem _ (List.mem_singleton.mpr rfl)) rfl rfl

/-- C9 amended: every entry of the report returned by `validate_file` is a
mapping from category to messages, except the vocabulary-coverage entry,
which is a bare string under the key `"feature_type"`; within a mapping a
category's value is either a single message string (assigned categories) or
an ordered list (setdefault/append categories), not always a list as the
claim stated. -/
theorem C9_report_shape {sch : Schema} {lines : List String} {rep : Report}
    (hok : validate_file sch lines = .ok rep) : reportShape rep := by
  obtain ⟨stF, nF, rF, hall, hrep⟩ := validate_file_destruct hok
  subst hrep
  exact eofTypePass_shape sch stF (eofParentPass_maps stF
    (processLines_maps sch lines _ _ _ _ _ _ hall (fun k en h => Option.noConfusion h)))

/-- C9 witness: the shape invariant holds of a concrete report containing
both a line-keyed map entry and the bare feature-type string. -/
theorem C9_witness :
    reportShape
      [(RKey.line 2, REntry.map [("error", ErrVal.str "Line must have 9 tab-separated fields")]),
       (RKey.str "feature_type", REntry.bare "Missing feature types: mRNA")] :=
  @C9_report_shape (allAccept ["gene", "mRNA"]) ["# c", lineGene, lineShort]
    [(RKey.line 2, REntry.map [("error", ErrVal.str "Line must have 9 tab-separated fields")]),
     (RKey.str "feature_type", REntry.bare "Missing feature types: mRNA")] rfl

/-- Within `fieldStage`, the `start`/`end` categories are exactly what
`startEndErr` produced: the later field checks and the generic attribute loop
never touch them. -/
theorem fieldStage_start_end (sch : Schema) (st : VState) (fields : List String)
    {c : String} (hc : c = "start" ∨ c = "end") :
    alookup (fieldStage sch st fields).2 c =
      alookup (startEndErr
        ((typeCheck sch st (sourceErr sch (seqidErr sch [] (fields.getD 0 ""))
          (fields.getD 1 "")) (fields.getD 2 "")).2)
        (fields.getD 3 "") (fields.getD 4 "")) c := by
  unfold fieldStage
  dsimp only
  rcases hc with rfl | rfl
  · rw [genericAttrErrs_lookup _ _ _ (cat_ne_attr (by decide)),
      phaseErr_lookup_ne _ _ _ (by decide), strandErr_lookup_ne _ _ (by decide),
      scoreErr_lookup_ne _ _ _ (by decide)]
  · rw [genericAttrErrs_lookup _ _ _ (cat_ne_attr (by decide)),
      phaseErr_lookup_ne _ _ _ (by decide), strandErr_lookup_ne _ _ (by decide),
      scoreErr_lookup_ne _ _ _ (by decide)]

/-- C6: start/end behaviour of `validate_line` on a 9-field line.  If either
field fails integer parsing, both a start-error and an end-error are
reported; if both parse, `start < 1` yields the start error and
`end < start` the end error (the witness shows the two co-occurring). -/
theorem C6_start_end_errors {sch : Schema} {st : VState} {line : String} {st2 : VState}
    {les : LineErrors}
    (h9 : (lineFields line).length = 9)
    (hok : validate_line sch st line = .ok (st2, les)) :
    ((pyInt ((lineFields line).getD 3 "") = none ∨
        pyInt ((lineFields line).getD 4 "") = none) →
      alookup les "start" =
        some (ErrVal.str ("Invalid start position: " ++ (lineFields line).getD 3 "")) ∧
      alookup les "end" =
        some (ErrVal.str ("Invalid end position: " ++ (lineFields line).getD 4 ""))) ∧
    (∀ a b : Int, pyInt ((lineFields line).getD 3 "") = some a →
      pyInt ((lineFields line).getD 4 "") = some b →
      (a < 1 → alookup les "start" =
        some (ErrVal.str ("Start position must be >= 1: " ++ (lineFields line).getD 3 ""))) ∧
      (b < a → alookup les "end" =
        some (ErrVal.str ("End position must be >= start position: " ++
          (lineFields line).getD 4 "")))) := by
  rw [validate_line_9 h9] at hok
  obtain ⟨stA, eA, idv?, stB, eB, eC, eD, eE, eF, eG, eH, eI, eJ, eK,
    h1, h2, h3, h4, h5, h6, h7, h8, h9', h10, h11, h12, hst⟩ := attrStage_ok hok
  have hchain : ∀ c, c = "start" ∨ c = "end" →
      alookup les c =
        alookup (startEndErr
          ((typeCheck sch st (sourceErr sch (seqidErr sch [] ((lineFields line).getD 0 ""))
            ((lineFields line).getD 1 "")) ((lineFields line).getD 2 "")).2)
          ((lineFields line).getD 3 "") ((lineFields line).getD 4 "")) c := by
    intro c hc
    have hne : c ≠ "codon" ∧ c ≠ "amino_acid" ∧ c ≠ "variant_seq" ∧ c ≠ "sequence" ∧
        c ≠ "replacement" ∧ c ≠ "gap" ∧ c ≠ "derives_from" ∧ c ≠ "target" ∧ c ≠ "note" ∧
        c ≠ "alias" ∧ c ≠ "parent" ∧ c ≠ "id" := by
      rcases hc with rfl | rfl <;> exact ⟨by decide, by decide, by decide, by decide,
        by decide, by decide, by decide, by decide, by decide, by decide, by decide, by decide⟩
    obtain ⟨n1, n2, n3, n4, n5, n6, n7, n8, n9, n10, n11, n12⟩ := hne
    rw [checkCodon_lookup_ne h12 n1, checkAminoAcid_lookup_ne h11 n2,
      checkVariantSeq_lookup_ne h10 n3, checkSequence_lookup_ne h9' n4,
      checkReplacement_lookup_ne h8 n5, checkGap_lookup_ne h7 n6,
      checkDerives_lookup_ne h6 n7, checkTarget_lookup_ne h5 n8,
      checkNote_lookup_ne h4 n9, checkAlias_lookup_ne h3 n10,
      checkParent_lookup_ne h2 n11, checkID_lookup_ne h1 n12]
    exact fieldStage_start_end sch st (lineFields line) hc
  constructor
  · intro hfail
    constructor
    · rw [hchain "start" (.inl rfl)]
      exact (startEndErr_invalid hfail).1
    · rw [hchain "end" (.inr rfl)]
      exact (startEndErr_invalid hfail).2
  · intro a b ha hb
    constructor
    · intro hlt
      rw [hchain "start" (.inl rfl)]
      exact startEndErr_low ha hb hlt
    · intro hlt
      rw [hchain "end" (.inr rfl)]
      exact startEndErr_endlt ha hb hlt

/-- C6 witness: on the line with `start=0`, `end=-1` the start-must-be-≥1 and
end-before-start errors co-occur in the returned error mapping. -/
theorem C6_witness :
    validate_line (allAccept ["gene"]) ⟨[], [], []⟩ lineBadPos =
      .ok (⟨["a"], [], ["gene"]⟩,
        [("start", ErrVal.str "Start position must be >= 1: 0"),
         ("end", ErrVal.str "End position must be >= start position: -1")]) ∧
    alookup [("start", ErrVal.str "Start position must be >= 1: 0"),
        ("end", ErrVal.str "End position must be >= start position: -1")] "start" =
      some (ErrVal.str ("Start position must be >= 1: " ++ "0")) ∧
    alookup [("start", ErrVal.str "Start position must be >= 1: 0"),
        ("end", ErrVal.str "End position must be >= start position: -1")] "end" =
      some (ErrVal.str ("End position must be >= start position: " ++ "-1")) :=
  ⟨rfl,
   ((@C6_start_end_errors (allAccept ["gene"]) ⟨[], [], []⟩ lineBadPos ⟨["a"], [], ["gene"]⟩
     [("start", ErrVal.str "Start position must be >= 1: 0"),
       ("end", ErrVal.str "End position must be >= start position: -1")]
     rfl rfl).2 0 (-1) rfl rfl).1 (by decide),
   ((@C6_start_end_errors (allAccept ["gene"]) ⟨[], [], []⟩ lineBadPos ⟨["a"], [], ["gene"]⟩
     [("start", ErrVal.str "Start position must be >= 1: 0"),
       ("end", ErrVal.str "End position must be >= start position: -1")]
     rfl rfl).2 0 (-1) rfl rfl).2 (by decide)⟩

/-- C5 amended: when the `ID` value conforms to the ID character pattern, the
second occurrence of the value within a run always yields
`'id': 'Duplicate ID: <v>'` in its line's error mapping and the first
occurrence yields no `'id'` entry at all.  (When the value violates the
pattern, the invalid-characters error of line 112 overwrites the duplicate-ID
error under the same `'id'` key — the counterexample exhibits this.) -/
theorem C5_duplicate_id {sch : Schema} {line : String} {v : String}
    (h9 : (lineFields line).length = 9)
    (hid : alookup (parseAttrs ((lineFields line).getD 8 "")) "ID" = some (.str v))
    (hpat : idPattern v = true) :
    (∀ st st2 les, st.seen_ids.contains v = false →
      validate_line sch st line = .ok (st2, les) → alookup les "id" = none) ∧
    (∀ st st2 les, st.seen_ids.contains v = true →
      validate_line sch st line = .ok (st2, les) →
      alookup les "id" = some (ErrVal.str ("Duplicate ID: " ++ v))) := by
  constructor
  · intro st st2 les hseen hok
    rw [validate_line_9 h9] at hok
    obtain ⟨stA, eA, idv?, stB, eB, eC, eD, eE, eF, eG, eH, eI, eJ, eK,
      h1, h2, h3, h4, h5, h6, h7, h8, h9', h10, h11, h12, hst⟩ := attrStage_ok hok
    have he : eA = (fieldStage sch st (lineFields line)).2 :=
      checkID_first h1 hid hpat (by rw [fieldStage_seen]; exact hseen)
    rw [checkCodon_lookup_ne h12 (by decide), checkAminoAcid_lookup_ne h11 (by decide),
      checkVariantSeq_lookup_ne h10 (by decide), checkSequence_lookup_ne h9' (by decide),
      checkReplacement_lookup_ne h8 (by decide), checkGap_lookup_ne h7 (by decide),
      checkDerives_lookup_ne h6 (by decide), checkTarget_lookup_ne h5 (by decide),
      checkNote_lookup_ne h4 (by decide), checkAlias_lookup_ne h3 (by decide),
      checkParent_lookup_ne h2 (by decide), he]
    exact fieldStage_lookup sch st _ (by decide) (by decide) (by decide) (by decide)
      (by decide) (by decide) (by decide) (by decide) (cat_ne_attr (by decide))
  · intro st st2 les hseen hok
    rw [validate_line_9 h9] at hok
    obtain ⟨stA, eA, idv?, stB, eB, eC, eD, eE, eF, eG, eH, eI, eJ, eK,
      h1, h2, h3, h4, h5, h6, h7, h8, h9', h10, h11, h12, hst⟩ := attrStage_ok hok
    have he : eA = assign (fieldStage sch st (lineFields line)).2 "id" ("Duplicate ID: " ++ v) :=
      checkID_dup h1 hid hpat (by rw [fieldStage_seen]; exact hseen)
    rw [checkCodon_lookup_ne h12 (by decide), checkAminoAcid_lookup_ne h11 (by decide),
      checkVariantSeq_lookup_ne h10 (by decide), checkSequence_lookup_ne h9' (by decide),
      checkReplacement_lookup_ne h8 (by decide), checkGap_lookup_ne h7 (by decide),
      checkDerives_lookup_ne h6 (by decide), checkTarget_lookup_ne h5 (by decide),
      checkNote_lookup_ne h4 (by decide), checkAlias_lookup_ne h3 (by decide),
      checkParent_lookup_ne h2 (by decide), he]
    exact lookup_assign_self _ _ _

/-- C5 witness: with the pattern-conformant value `good`, the first
occurrence produces no `'id'` entry and the second produces exactly the
duplicate-ID error. -/
theorem C5_witness :
    validate_line (allAccept ["gene"]) ⟨[], [], []⟩ lineGood =
      .ok (⟨["good"], [], ["gene"]⟩, []) ∧
    alookup ([] : LineErrors) "id" = none ∧
    validate_line (allAccept ["gene"]) ⟨["good"], [], ["gene"]⟩ lineGood =
      .ok (⟨["good"], [], ["gene"]⟩, [("id", ErrVal.str "Duplicate ID: good")]) ∧
    alookup [("id", ErrVal.str "Duplicate ID: good")] "id" =
      some (ErrVal.str ("Duplicate ID: " ++ "good")) :=
  ⟨rfl,
   (@C5_duplicate_id (allAccept ["gene"]) lineGood "good" rfl rfl rfl).1
     ⟨[], [], []⟩ ⟨["good"], [], ["gene"]⟩ [] rfl rfl,
   rfl,
   (@C5_duplicate_id (allAccept ["gene"]) lineGood "good" rfl rfl rfl).2
     ⟨["good"], [], ["gene"]⟩ ⟨["good"], [], ["gene"]⟩
     [("id", ErrVal.str "Duplicate ID: good")] rfl rfl⟩

/-- C7 amended: a `Gap` value with at least two whitespace-separated tokens
whose first token parses as a non-negative integer yields no gap error.  (The
claim's "no minimum token count" is false: line 172 demands at least two
tokens — see the counterexample with the single-token value `5`.) -/
theorem C7_gap_wellformed {sch : Schema} {st : VState} {line : String} {st2 : VState}
    {les : LineErrors} {gv : String} {n : Int}
    (h9 : (lineFields line).length = 9)
    (hok : validate_line sch st line = .ok (st2, les))
    (hg : alookup (parseAttrs ((lineFields line).getD 8 "")) "Gap" = some (.str gv))
    (hlen : ¬ (pySplitWS gv).length < 2)
    (hn : pyInt ((pySplitWS gv).getD 0 "") = some n)
    (hnn : ¬ n < 0) :
    alookup les "gap" = none := by
  rw [validate_line_9 h9] at hok
  obtain ⟨stA, eA, idv?, stB, eB, eC, eD, eE, eF, eG, eH, eI, eJ, eK,
    h1, h2, h3, h4, h5, h6, h7, h8, h9', h10, h11, h12, hst⟩ := attrStage_ok hok
  have hG : eG = eF := checkGap_good h7 hg hlen hn hnn
  rw [checkCodon_lookup_ne h12 (by decide), checkAminoAcid_lookup_ne h11 (by decide),
    checkVariantSeq_lookup_ne h10 (by decide), checkSequence_lookup_ne h9' (by decide),
    checkReplacement_lookup_ne h8 (by decide), hG,
    checkDerives_lookup_ne h6 (by decide), checkTarget_lookup_ne h5 (by decide),
    checkNote_lookup_ne h4 (by decide), checkAlias_lookup_ne h3 (by decide),
    checkParent_lookup_ne h2 (by decide), checkID_lookup_ne h1 (by decide)]
  exact fieldStage_lookup sch st _ (by decide) (by decide) (by decide) (by decide)
    (by decide) (by decide) (by decide) (by decide) (cat_ne_attr (by decide))

/-- C7 witness: the two-token `Gap` value `5 M3` (first token the
non-negative integer `5`) produces no gap error. -/
theorem C7_witness :
    validate_line (allAccept ["gene"]) ⟨[], [], []⟩ lineGap2 =
      .ok (⟨["a"], [], ["gene"]⟩, []) ∧
    alookup ([] : LineErrors) "gap" = none :=
  ⟨rfl, @C7_gap_wellformed (allAccept ["gene"]) ⟨[], [], []⟩ lineGap2 ⟨["a"], [], ["gene"]⟩
    [] "5 M3" 5 rfl rfl rfl (by decide) rfl (by decide)⟩

/-! ## C8: the attribute parser -/

theorem foldl_aupdate_getLast (k : String) :
    ∀ (ps : List (String × AttrVal)) (m : List (String × AttrVal)),
      alookup (ps.foldl (fun m kv => aupdate m kv.1 kv.2) m) k =
        match (ps.filter (fun p => p.1 = k)).getLast? with
        | some p => some p.2
        | none => alookup m k := by
  intro ps
  induction ps with
  | nil => intro m; rfl
  | cons p ps ih =>
    intro m
    rw [List.foldl_cons, ih]
    by_cases hp : p.1 = k
    · rw [List.filter_cons_of_pos (by simpa using hp)]
      cases hf : ps.filter (fun q => q.1 = k) with
      | nil =>
        simp only [List.getLast?_nil, List.getLast?_singleton]
        rw [← hp]
        exact alookup_aupdate_self m p.1 p.2
      | cons q qs =>
        rw [List.getLast?_cons_cons]
        cases hg : (q :: qs).getLast? with
        | some r => rfl
        | none =>
          have hs : (q :: qs).getLast?.isSome := List.getLast?_isSome.mpr (List.cons_ne_nil q qs)
          rw [hg] at hs
          cases hs
    · rw [List.filter_cons_of_neg (by simpa using hp)]
      cases hf : (ps.filter (fun q => q.1 = k)).getLast? with
      | some q => rfl
      | none => exact alookup_aupdate_ne m p.2 (fun hh => hp hh.symm)

theorem parseAttrs_eq_fold (s : String) :
    parseAttrs s =
      ((pySplitChar ';' s).map segKVspec).foldl (fun m kv => aupdate m kv.1 kv.2) [] := by
  unfold parseAttrs
  rw [List.foldl_map]
  refine List.foldl_ext _ _ _ ?_
  intro m attr _
  unfold segKVspec
  dsimp only
  split
  · rfl
  · rfl

/-- C8: for every raw attributes string and key, the attribute parser of
lines 86–92 (split on `;`; a segment with `=` maps the part before the first
`=` to the remainder, a segment without `=` to the flag `True`; dict
assignment) yields for each key exactly the value of the *last* segment with
that key — the last-occurrence-wins reading of the spec, here expressed with
the spec-modelled `specAttrLookup`. -/
theorem C8_attr_parser_last_wins (s k : String) :
    alookup (parseAttrs s) k = specAttrLookup s k := by
  rw [parseAttrs_eq_fold, foldl_aupdate_getLast]
  unfold specAttrLookup
  cases hf : (((pySplitChar ';' s).map segKVspec).filter (fun p => p.1 = k)).getLast? with
  | some p => rfl
  | none => rfl

end GFF3
